import Mathlib

set_option maxHeartbeats 1000000
set_option maxRecDepth 100000

/-!
Verification development for the gatsby side-scroller repository.

The definitions below are a shallow embedding of the repository's
TypeScript sources:

* `src/api/submit-score.ts` (first document) — the Submit endpoint:
  validation, server-side username sanitization, and the
  "only keep the strictly higher score" update against a Redis sorted set.
* `src/api/leaderboard.ts` (first document) — the List endpoint: top-25
  descending read of the sorted set and 1-based position assignment.
* `src/src/game.ts` (first document) — the per-frame `update` cycle
  (character kinematics, obstacle/tree spawning, collision and lives,
  obstacle retirement and scoring), `jump`, and `destroyBlock`.
* `src/src/difficulty/helpers/difficulty.ts` — the difficulty table.

JavaScript numbers are modelled as `ℚ` for the game-state machinery (every
constant involved is rational, which keeps the model executable) and as `ℝ`
for the jump kinematics, whose impulse constant `JUMP_STRENGTH` is an
irrational square root.  `Math.random()` draws are passed in explicitly,
one field per call site of a tick; `Date.now()` is an explicit `now`
argument.  The Redis sorted set is a list of (member, score) pairs with
distinct members, read back in ZREVRANGE order (score descending, member
tie-broken descending).
-/

namespace Gatsby

/-! ## Leaderboard server model -/

/-- Characters the server keeps in a username: the class `[A-Za-z0-9_-]`
of `submit-score.ts` line 75. -/
def allowedChar (c : Char) : Bool :=
  ('a' ≤ c && c ≤ 'z') || ('A' ≤ c && c ≤ 'Z') || ('0' ≤ c && c ≤ '9') ||
    c == '_' || c == '-'

/-- ASCII whitespace removed by JavaScript `String.prototype.trim` (the
usernames in play are ASCII). -/
def jsWhitespace (c : Char) : Bool :=
  c == ' ' || c == '\t' || c == '\n' || c == '\r' || c == '\x0b' || c == '\x0c'

/-- JavaScript `s.trim()`: strip leading and trailing whitespace. -/
def jsTrim (s : String) : String :=
  ⟨((s.toList.dropWhile jsWhitespace).reverse.dropWhile jsWhitespace).reverse⟩

/-- Server-side username sanitization, `submit-score.ts` line 75:
`body.username.trim().slice(0, 50).replace(/[^a-zA-Z0-9_-]/g, "")`. -/
def sanitizeUsername (s : String) : String :=
  ⟨((jsTrim s).take 50).toList.filter allowedChar⟩

/-- The Redis sorted set stored under the `"leaderboard"` key: one
(member, score) pair per username. -/
abbrev Store := List (String × ℤ)

/-- `ZSCORE leaderboard u`. -/
def zscore (st : Store) (u : String) : Option ℤ :=
  (st.find? (fun e => e.1 == u)).map (fun e => e.2)

/-- `ZADD leaderboard sc u`: update the member's score in place, or append
the member. -/
def zadd (st : Store) (u : String) (sc : ℤ) : Store :=
  if (st.find? (fun e => e.1 == u)).isSome then
    st.map (fun e => if e.1 == u then (u, sc) else e)
  else st ++ [(u, sc)]

/-- The order in which ZREVRANGE / ZREVRANK enumerate the sorted set:
score descending, equal scores tie-broken by member, descending
lexicographically. `revOrder a b` reads "a comes no later than b". -/
def revOrder (a b : String × ℤ) : Bool :=
  decide (b.2 < a.2 ∨ (a.2 = b.2 ∧ ¬ a.1 < b.1))

/-- `ZREVRANK leaderboard u`: 0-based rank in descending order. -/
def zrevrank (st : Store) (u : String) : Option ℕ :=
  (st.mergeSort revOrder).findIdx? (fun e => e.1 == u)

/-- `ZREVRANGE leaderboard 0 24 WITHSCORES`: the best 25 entries in
descending order (`leaderboard.ts` line 77). -/
def zrevrangeTop25 (st : Store) : Store :=
  (st.mergeSort revOrder).take 25

/-- A parsed Submit request body (`{username, score}`).  The score is a
`ℚ` so that the handler's `Number.isInteger` check is expressible. -/
structure SubmitReq where
  username : String
  score : ℚ
deriving DecidableEq

/-- The observable part of a Submit response: HTTP status, the `success`
field when the body carries one, the sanitized username echoed back, and
the 1-based `position`. -/
structure SubmitResp where
  status : ℕ
  success : Option Bool
  username : Option String
  position : Option ℕ
deriving DecidableEq

/-- Result of one Submit call: the response, the store afterwards, and how
many Redis commands were issued (0 when validation rejects the request
before any datastore access). -/
structure SubmitOut where
  resp : SubmitResp
  store : Store
  redisCalls : ℕ
deriving DecidableEq

/-- The POST /api/submit-score handler, `submit-score.ts` lines 42-138, on
its non-exceptional path: validate username and score, sanitize, ZSCORE
the current best, and either ZADD the strictly higher score (success) or
leave the store untouched (success:false). -/
def submitHandler (st : Store) (req : SubmitReq) : SubmitOut :=
  if req.username = "" then
    ⟨⟨400, none, none, none⟩, st, 0⟩
  else if req.score < 0 ∨ ¬ req.score.isInt then
    ⟨⟨400, none, none, none⟩, st, 0⟩
  else
    let username := sanitizeUsername req.username
    if username = "" then
      ⟨⟨400, none, none, none⟩, st, 0⟩
    else
      let existing := zscore st username
      let isHigher := match existing with
        | none => true
        | some e => decide ((e : ℚ) < req.score)
      if isHigher then
        let st' := zadd st username req.score.num
        ⟨⟨200, some true, some username, (zrevrank st' username).map (· + 1)⟩, st', 3⟩
      else
        ⟨⟨200, some false, some username, (zrevrank st username).map (· + 1)⟩, st, 2⟩

/-- One row of the List response. -/
structure LBEntry where
  username : String
  score : ℤ
  position : ℕ
deriving DecidableEq

/-- The observable part of a List response. -/
structure ListResp where
  status : ℕ
  entries : List LBEntry
deriving DecidableEq

/-- The entry-building loop of `leaderboard.ts` lines 98-113: walk the
ZREVRANGE result and push `{username, score, position: entries.length+1}`,
skipping falsy (empty) usernames; `Math.round(Number(score))` is the
identity on the integer scores the store holds. -/
def mkEntries : Store → List LBEntry → List LBEntry
  | [], acc => acc
  | (u, sc) :: rest, acc =>
    if u = "" then mkEntries rest acc
    else mkEntries rest (acc ++ [⟨u, sc, acc.length + 1⟩])

/-- A List request: the HTTP method and the parsed query string.  The
handler in `leaderboard.ts` never reads the query string. -/
structure ListReq where
  method : String
  query : List (String × String)
deriving DecidableEq

/-- The GET /api/leaderboard handler, `leaderboard.ts` lines 25-135, on its
non-exceptional path. -/
def leaderboardHandler (req : ListReq) (st : Store) : ListResp :=
  if req.method = "OPTIONS" then ⟨200, []⟩
  else if req.method ≠ "GET" then ⟨405, []⟩
  else ⟨200, mkEntries (zrevrangeTop25 st) []⟩

/-! ## Game model over ℚ

Constants from `CONFIG` in `game.ts` (the literal initial configuration;
the DOM resize hook that rewrites them is presentation glue outside the
modelled core). -/

def CANVAS_WIDTH : ℚ := 800
def FLOOR_Y : ℚ := 500
def CHARACTER_START_X : ℚ := 100
def CHARACTER_SIZE : ℚ := 40
def GRAVITY : ℚ := 1/10
def OBSTACLE_SPEED : ℚ := 3
def OBSTACLE_SPACING : ℚ := 300
def BLOCK_SIZE : ℚ := 40
def FLOOR_SPEED : ℚ := 3
def TREE_SPEED : ℚ := 1
def TREE_SPAWN_MIN_FRAMES : ℕ := 150
def TREE_SPAWN_MAX_FRAMES : ℕ := 400
def TREE_MIN_HEIGHT : ℚ := 320
def TREE_MAX_HEIGHT : ℚ := 400

/-- The game-state machine's phases (`enum GameState`). -/
inductive GState
  | START
  | PLAYING
  | GAME_OVER_ANIMATING
  | GAME_OVER
deriving DecidableEq

/-- `enum DifficultyLevel` from `difficulty.ts`. -/
inductive DifficultyLevel
  | EASY
  | MEDIUM
  | HARD
deriving DecidableEq

/-- The `DifficultySettings` table of `difficulty.ts` lines 9-19. -/
def DifficultySettings.obstacleSpacing : DifficultyLevel → ℚ
  | .EASY => 300
  | .MEDIUM => 200
  | .HARD => 500

/-- An image as the game reads it: natural width and height (used only
through the aspect quotient). -/
structure Img where
  width : ℚ
  height : ℚ
deriving DecidableEq

/-- An obstacle tower (`class Obstacle`): `blocks` holds each remaining
block's y coordinate. -/
structure Obst where
  x : ℚ
  blocks : List ℚ
  image : Option Img
  originalImage : Option Img
  originalImagePath : Option String
  madUntil : Option ℚ
deriving DecidableEq

/-- A background tree (`class Tree`): size is fixed at creation. -/
structure Tree where
  x : ℚ
  width : ℚ
  height : ℚ
deriving DecidableEq

/-- The mutable fields of `class Game` that the update cycle,
`destroyBlock` and the claims touch. -/
structure GameSt where
  state : GState
  score : ℕ
  difficulty : DifficultyLevel
  characterX : ℚ
  characterY : ℚ
  characterVelocityY : ℚ
  canDoubleJump : Bool
  hasDoubleJumped : Bool
  lives : ℤ
  isInCollision : Bool
  characterRotation : ℚ
  gameOverAnimationTime : ℚ
  shakeTime : ℚ
  shakeOffsetX : ℚ
  shakeOffsetY : ℚ
  isBarking : Bool
  floorOffset : ℚ
  obstacles : List Obst
  obstacleTimer : ℕ
  obstacleSpacing : ℚ
  obstacleSpacingHistory : List ℚ
  trees : List Tree
  treeImages : List Img
  treeSpawnCounter : ℕ
  nextTreeSpawnFrame : ℕ
  obstacleImages : List (Img × String)
  madObstacleImages : List (String × Img)
deriving DecidableEq

/-- The Math.random() draws one call of `update` may consume, one field
per call site. -/
structure TickRand where
  spacingU : ℚ
  blockU : ℚ
  obImgU : ℚ
  shakeU1 : ℚ
  shakeU2 : ℚ
  treeImgU : ℚ
  treeHeightU : ℚ
  treeNextU : ℚ
deriving DecidableEq

/-- Obstacle width for bounding checks (`checkCollision` lines 1293-1299
of `game.ts`): `BLOCK_SIZE` without an image, else the block-stack height
scaled by the image's aspect quotient. -/
def obstacleWidth (o : Obst) : ℚ :=
  match o.image with
  | some img =>
    if 0 < o.blocks.length then
      ((o.blocks.length : ℚ) * BLOCK_SIZE) * (img.width / img.height)
    else BLOCK_SIZE
  | none => BLOCK_SIZE

/-- Axis-aligned character/obstacle test (`Game.checkCollision`):
horizontal ranges overlap and some block's vertical range overlaps the
character's. -/
def checkCollision (cx cy : ℚ) (o : Obst) : Bool :=
  if o.x < cx + CHARACTER_SIZE ∧ cx < o.x + obstacleWidth o then
    o.blocks.any (fun b => decide (b < cy + CHARACTER_SIZE ∧ cy < b + BLOCK_SIZE))
  else false

/-- `Game.gameOver`: enter the death animation. -/
def gameOver (s : GameSt) : GameSt :=
  { s with state := .GAME_OVER_ANIMATING, characterRotation := 0,
           gameOverAnimationTime := 0 }

/-- `Game.makeObstacleMad`: swap in the mad image variant for 2000 ms when
one is registered for the obstacle's original image path. -/
def makeObstacleMad (madImages : List (String × Img)) (now : ℚ) (o : Obst) : Obst :=
  match o.originalImagePath, o.originalImage with
  | some path, some _ =>
    match madImages.find? (fun e => e.1 == path) with
    | some e => { o with image := some e.2, madUntil := some (now + 2000) }
    | none => o
  | _, _ => o

/-- The per-obstacle mad-timer check at the end of the move loop
(`Obstacle.restoreOriginalImage` when `currentTime >= madUntil`). -/
def restoreIfExpired (now : ℚ) (o : Obst) : Obst :=
  match o.madUntil with
  | some t => if t ≤ now then { o with image := o.originalImage, madUntil := none } else o
  | none => o

/-- One iteration of the obstacle move loop (`game.ts` lines 1232-1260):
move left by `OBSTACLE_SPEED`; retire (and score) when the right edge
`x + BLOCK_SIZE` has passed the left viewport edge; on a fresh collision
edge deduct a life, set the collision latch, madden the obstacle, and on
zero lives enter game over (halting the loop); finally run the mad-timer
check.  Returns the kept obstacle (if any), the threaded state, and
whether the loop halted. -/
def processObstacle (now : ℚ) (s : GameSt) (o : Obst) : Option Obst × GameSt × Bool :=
  let o1 : Obst := { o with x := o.x - OBSTACLE_SPEED }
  let removed : Bool := decide (o1.x + BLOCK_SIZE < 0)
  let s1 := if removed then { s with score := s.score + o1.blocks.length } else s
  if ¬ s1.isInCollision ∧ checkCollision s1.characterX s1.characterY o1 then
    let o2 := makeObstacleMad s1.madObstacleImages now o1
    let s2 := { s1 with isInCollision := true, lives := s1.lives - 1 }
    if s2.lives ≤ 0 then
      (if removed then none else some o2, gameOver s2, true)
    else
      (if removed then none else some (restoreIfExpired now o2), s2, false)
  else
    (if removed then none else some (restoreIfExpired now o1), s1, false)

/-- The backward `for` loop over `this.obstacles`: indices are visited from
the end of the array, and the in-loop `return` of `gameOver` leaves the
lower-indexed obstacles unprocessed. -/
def moveObstacles (now : ℚ) : List Obst → GameSt → List Obst × GameSt × Bool
  | [], s => ([], s, false)
  | o :: rest, s =>
    match moveObstacles now rest s with
    | (rest', s', true) => (o :: rest', s', true)
    | (rest', s', false) =>
      match processObstacle now s' o with
      | (some o2, s'', h) => (o2 :: rest', s'', h)
      | (none, s'', h) => (rest', s'', h)

/-- The obstacle move/retire/collide stage of `update`. -/
def movePhase (now : ℚ) (s : GameSt) : GameSt :=
  match moveObstacles now s.obstacles s with
  | (obs, s', _) => { s' with obstacles := obs }

/-- The shake-animation stage of `update` (lines 1111-1128): advance the
16 ms clock while `0 ≤ shakeTime < 2000`, jitter the offsets, and on
completion stop at `shakeTime = -1`, zero the offsets and end the bark
sprite. -/
def shakePhase (r : TickRand) (s : GameSt) : GameSt :=
  if 0 ≤ s.shakeTime ∧ s.shakeTime < 2000 then
    let t := s.shakeTime + 16
    let progress := t / 2000
    let intensity := 1 - progress
    let amount := 5 * intensity
    if 1 ≤ progress then
      { s with shakeTime := -1, shakeOffsetX := 0, shakeOffsetY := 0, isBarking := false }
    else
      { s with shakeTime := t,
               shakeOffsetX := (r.shakeU1 - 1/2) * 2 * amount,
               shakeOffsetY := (r.shakeU2 - 1/2) * 2 * amount }
  else s

/-- The `GAME_OVER_ANIMATING` branch of `update` (lines 1095-1109): advance
the 2000 ms death animation and finish game over at full progress. -/
def gameOverAnimPhase (s : GameSt) : GameSt :=
  let t := s.gameOverAnimationTime + 16
  let progress := min (t / 2000) 1
  let s1 := { s with gameOverAnimationTime := t, characterRotation := progress * 180 }
  if 1 ≤ progress then { s1 with state := .GAME_OVER } else s1

/-- `this.floorOffset += CONFIG.FLOOR_SPEED`. -/
def floorPhase (s : GameSt) : GameSt :=
  { s with floorOffset := s.floorOffset + FLOOR_SPEED }

/-- Character physics and ground clamp (lines 1137-1146): integrate
gravity, and at or below the floor line pin the character down, zero the
velocity and clear both jump flags. -/
def physicsPhase (s : GameSt) : GameSt :=
  let v := s.characterVelocityY + GRAVITY
  let y := s.characterY + v
  if FLOOR_Y - CHARACTER_SIZE ≤ y then
    { s with characterY := FLOOR_Y - CHARACTER_SIZE, characterVelocityY := 0,
             canDoubleJump := false, hasDoubleJumped := false }
  else { s with characterY := y, characterVelocityY := v }

/-- `Game.getRandomObstacleImage`: a uniformly drawn loaded image (with its
path), or none when nothing loaded. -/
def getRandomObstacleImage (images : List (Img × String)) (u : ℚ) :
    Option Img × Option String :=
  if images.length = 0 then (none, none)
  else
    match images.get? (⌊u * images.length⌋).toNat with
    | some e => (some e.1, some e.2)
    | none => (none, none)

/-- The `Obstacle` constructor: blocks stacked from the floor upward,
`block[i].y = FLOOR_Y - BLOCK_SIZE - i * BLOCK_SIZE`. -/
def mkObstacle (startX : ℚ) (blockCount : ℕ) (image : Option Img)
    (imagePath : Option String) : Obst :=
  { x := startX
    blocks := (List.range blockCount).map (fun i => FLOOR_Y - BLOCK_SIZE - (i : ℚ) * BLOCK_SIZE)
    image := image
    originalImage := image
    originalImagePath := imagePath
    madUntil := none }

/-- The obstacle spawn stage of `update` (lines 1149-1166): advance the
frame counter, and on reaching the current spacing reset it, redraw the
spacing as `Math.round(CONFIG.OBSTACLE_SPACING * (0.5 + 1.0 * u))`, record
the history (last 3), draw a block count `Math.floor(u * 9) + 2`, and
append a new obstacle at the right viewport edge. -/
def spawnPhase (r : TickRand) (s : GameSt) : GameSt :=
  let timer := s.obstacleTimer + 1
  if s.obstacleSpacing ≤ (timer : ℚ) then
    let spacing : ℚ := (round (OBSTACLE_SPACING * (1/2 + 1 * r.spacingU)) : ℤ)
    let hist0 := s.obstacleSpacingHistory ++ [spacing]
    let hist := if 3 < hist0.length then hist0.tail else hist0
    let blockCount := (⌊r.blockU * 9⌋).toNat + 2
    let imgPath := getRandomObstacleImage s.obstacleImages r.obImgU
    { s with obstacleTimer := 0, obstacleSpacing := spacing,
             obstacleSpacingHistory := hist,
             obstacles := s.obstacles ++ [mkObstacle CANVAS_WIDTH blockCount imgPath.1 imgPath.2] }
  else { s with obstacleTimer := timer }

/-- The whole-set overlap test of lines 1169-1175 (`currentlyColliding`). -/
def collidingAny (s : GameSt) : Bool :=
  s.obstacles.any (checkCollision s.characterX s.characterY)

/-- The collision-latch release of lines 1178-1180: the flag clears only
when a check finds zero overlapping obstacles across the whole set. -/
def clearCollisionPhase (s : GameSt) : GameSt :=
  if s.isInCollision ∧ ¬ collidingAny s then { s with isInCollision := false } else s

/-- `Game.getRandomTreeImage`. -/
def getRandomTreeImage (images : List Img) (u : ℚ) : Option Img :=
  if images.length = 0 then none else images.get? (⌊u * images.length⌋).toNat

/-- A fresh random tree-spawn target frame count. -/
def nextTreeFrames (u : ℚ) : ℕ :=
  TREE_SPAWN_MIN_FRAMES +
    (⌊u * ((TREE_SPAWN_MAX_FRAMES : ℚ) - (TREE_SPAWN_MIN_FRAMES : ℚ))⌋).toNat

/-- The `Tree` constructor: height drawn in the configured band, width from
the image's aspect. -/
def mkTree (startX : ℚ) (img : Img) (u : ℚ) : Tree :=
  let height := TREE_MIN_HEIGHT + (TREE_MAX_HEIGHT - TREE_MIN_HEIGHT) * u
  { x := startX, width := (img.width / img.height) * height, height := height }

/-- The tree spawn stage of `update` (lines 1183-1213): on reaching the
random target, spawn at the right edge when the previous tree is at least
half a viewport away, else skip; spawn or image-less attempts reset the
counter and redraw the target. -/
def treePhase (r : TickRand) (s : GameSt) : GameSt :=
  let counter := s.treeSpawnCounter + 1
  if s.nextTreeSpawnFrame ≤ counter then
    match getRandomTreeImage s.treeImages r.treeImgU with
    | some img =>
      let canSpawn :=
        match s.trees.getLast? with
        | some lastTree => decide (¬ CANVAS_WIDTH - lastTree.x < CANVAS_WIDTH * (1/2))
        | none => true
      if canSpawn then
        { s with trees := s.trees ++ [mkTree CANVAS_WIDTH img r.treeHeightU],
                 nextTreeSpawnFrame := nextTreeFrames r.treeNextU,
                 treeSpawnCounter := 0 }
      else { s with treeSpawnCounter := counter }
    | none =>
      { s with nextTreeSpawnFrame := nextTreeFrames r.treeNextU, treeSpawnCounter := 0 }
  else { s with treeSpawnCounter := counter }

/-- The tree move/prune loop (lines 1216-1225). -/
def treeMovePhase (s : GameSt) : GameSt :=
  let moved := s.trees.map (fun t => { t with x := t.x - TREE_SPEED : Tree })
  { s with trees := moved.filter (fun t => decide (0 ≤ t.x + t.width)) }

/-- `Game.update` (lines 1094-1260): the death-animation branch, the shake
animation, the early return outside `PLAYING`, then floor, physics,
obstacle spawn, collision-latch release, tree spawn and movement, and the
obstacle move/retire/collide loop. -/
def update (r : TickRand) (now : ℚ) (s : GameSt) : GameSt :=
  if s.state = GState.GAME_OVER_ANIMATING then gameOverAnimPhase s
  else
    let s1 := shakePhase r s
    if s1.state ≠ GState.PLAYING then s1
    else
      movePhase now (treeMovePhase (treePhase r (clearCollisionPhase
        (spawnPhase r (physicsPhase (floorPhase s1))))))

/-- The candidate scan of `Game.destroyBlock` (lines 620-655): carry the
index and distance of the best obstacle seen so far; a strictly closer
obstacle ahead of the character, on screen and taller than 2 blocks takes
over. -/
def destroyScan (cx : ℚ) : List Obst → ℕ → Option (ℕ × ℚ) → Option (ℕ × ℚ)
  | [], _, best => best
  | o :: rest, i, best =>
    let w := obstacleWidth o
    let best' :=
      if cx < o.x ∧ 0 < o.x + w ∧ o.x < CANVAS_WIDTH then
        let distance := o.x - cx
        let isCloser := match best with
          | none => true
          | some b => decide (distance < b.2)
        if isCloser && decide (2 < o.blocks.length) then some (i, distance) else best
      else best
    destroyScan cx rest (i + 1) best'

/-- `nearestObstacle.blocks.pop()`: drop the topmost (last-pushed) block. -/
def popTopBlock (o : Obst) : Obst :=
  { o with blocks := o.blocks.dropLast }

/-- `Game.destroyBlock`: pop the top block of the nearest qualifying
obstacle and start the shake/bark animation; no-op when no obstacle
qualifies. -/
def destroyBlock (s : GameSt) : GameSt :=
  match destroyScan s.characterX s.obstacles 0 none with
  | some (i, _) =>
    match s.obstacles.get? i with
    | some o =>
      if 2 < o.blocks.length then
        { s with obstacles := s.obstacles.set i (popTopBlock o),
                 shakeTime := 0, isBarking := true }
      else s
    | none => s
  | none => s

/-! ## Jump kinematics over ℝ -/

/-- `JUMP_STRENGTH = -Math.sqrt(2 * GRAVITY * JUMP_HEIGHT * BLOCK_SIZE)`
(`game.ts` lines 47-49), derived once at startup. -/
noncomputable def JUMP_STRENGTH : ℝ := -Real.sqrt (2 * 0.1 * 3 * 40)

/-- The character's kinematics state
`(characterY, characterVelocityY, canDoubleJump, hasDoubleJumped)`. -/
structure CharKin where
  characterY : ℝ
  characterVelocityY : ℝ
  canDoubleJump : Bool
  hasDoubleJumped : Bool

/-- `Game.jump` (lines 606-618): grounded jump, double jump, or no-op. -/
noncomputable def jump (c : CharKin) : CharKin :=
  if 500 - 40 ≤ c.characterY then
    { c with characterVelocityY := JUMP_STRENGTH, canDoubleJump := true,
             hasDoubleJumped := false }
  else if c.canDoubleJump ∧ ¬ c.hasDoubleJumped then
    { c with characterVelocityY := JUMP_STRENGTH, hasDoubleJumped := true,
             canDoubleJump := false }
  else c

/-- The physics lines 1137-1146 of `update` restricted to the kinematics
state: gravity integration and the ground clamp. -/
noncomputable def physStep (c : CharKin) : CharKin :=
  let v := c.characterVelocityY + 0.1
  let y := c.characterY + v
  if 500 - 40 ≤ y then
    { characterY := 500 - 40, characterVelocityY := 0, canDoubleJump := false,
      hasDoubleJumped := false }
  else { c with characterY := y, characterVelocityY := v }

/-- The grounded rest state (`resetGame`):
`characterY = FLOOR_Y - CHARACTER_SIZE`, zero velocity, flags cleared. -/
noncomputable def groundedStart : CharKin := ⟨500 - 40, 0, false, false⟩

/-- The trajectory of a single jump from rest: `k` physics ticks after the
`jump()` call. -/
noncomputable def simStates (k : ℕ) : CharKin := physStep^[k] (jump groundedStart)

/-- Height gained over the start position after `k` ticks of the jump. -/
noncomputable def riseAt (k : ℕ) : ℝ :=
  groundedStart.characterY - (simStates k).characterY

/-- Every rise sampled up to the tick on which the velocity first returns
to ≥ 0 stays at or below 118 pixels. -/
def ascentBoundedBy118 : Prop := ∀ k, k ≤ 49 → riseAt k ≤ 118

/-! ## Derived observations and concrete scenario states -/

/-- The qualification test of `destroyBlock`'s scan: ahead of the
character, on screen, and taller than 2 blocks. -/
def attackCandidate (cx : ℚ) (o : Obst) : Prop :=
  cx < o.x ∧ 0 < o.x + obstacleWidth o ∧ o.x < CANVAS_WIDTH ∧ 2 < o.blocks.length

instance (cx : ℚ) (o : Obst) : Decidable (attackCandidate cx o) := by
  unfold attackCandidate; infer_instance

/-- The overlap observation `update` makes for the collision-latch release:
`currentlyColliding` computed after physics and spawning, before the
obstacles move. -/
def collidingAfterSpawn (r : TickRand) (s : GameSt) : Bool :=
  collidingAny (spawnPhase r (physicsPhase (floorPhase (shakePhase r s))))

/-- The active obstacle set at the point of a tick where the move loop
starts: after physics and spawning, before movement. -/
def activeAfterSpawn (r : TickRand) (s : GameSt) : List Obst :=
  (spawnPhase r (physicsPhase (floorPhase (shakePhase r s)))).obstacles

/-- The overlap the move loop itself tests on a tick: some post-spawn
obstacle, once moved left by `OBSTACLE_SPEED`, overlaps the character at
the position the physics phase left it. -/
def freshOverlapMoved (r : TickRand) (s : GameSt) : Prop :=
  ∃ o ∈ activeAfterSpawn r s,
    checkCollision (physicsPhase (floorPhase (shakePhase r s))).characterX
      (physicsPhase (floorPhase (shakePhase r s))).characterY
      { o with x := o.x - OBSTACLE_SPEED } = true

/-- Iterated ticks: `trace rs ts s n` is the state after `n` calls of
`update` fed by the randomness stream `rs` and clock `ts`. -/
def trace (rs : ℕ → TickRand) (ts : ℕ → ℚ) (s : GameSt) : ℕ → GameSt
  | 0 => s
  | n + 1 => update (rs n) (ts n) (trace rs ts s n)

/-- Feed a sequence of scores for one username through the Submit handler,
collecting each response's `success` field and the final store. -/
def submitScores (u : String) (qs : List ℚ) : List (Option Bool) × Store :=
  qs.foldl
    (fun acc q =>
      let out := submitHandler acc.2 ⟨u, q⟩
      (acc.1 ++ [out.resp.success], out.store))
    ([], [])

/-- A freshly reset `PLAYING` session (`resetGame` values, empty asset
lists, shake idle). -/
def baseSt : GameSt :=
  { state := .PLAYING, score := 0, difficulty := .MEDIUM,
    characterX := 100, characterY := 460, characterVelocityY := 0,
    canDoubleJump := false, hasDoubleJumped := false, lives := 3,
    isInCollision := false, characterRotation := 0, gameOverAnimationTime := 0,
    shakeTime := -1, shakeOffsetX := 0, shakeOffsetY := 0, isBarking := false,
    floorOffset := 0, obstacles := [], obstacleTimer := 0, obstacleSpacing := 300,
    obstacleSpacingHistory := [], trees := [], treeImages := [],
    treeSpawnCounter := 0, nextTreeSpawnFrame := 200, obstacleImages := [],
    madObstacleImages := [] }

/-- A fixed randomness draw with every uniform at 1/2 (indices at 0). -/
def r0 : TickRand := ⟨1/2, 1/2, 0, 1/2, 1/2, 0, 1/2, 1/2⟩

/-- Session about to spawn: difficulty `MEDIUM` whose selection set the
spacing to 200, frame counter one short of it. -/
def spawnReadySt : GameSt := { baseSt with obstacleTimer := 199, obstacleSpacing := 200 }

/-- A bare two-block tower (no image) about to leave the viewport:
`x = -38`, so the move to `-41` puts `x + BLOCK_SIZE` past the left edge. -/
def retiringObst : Obst := ⟨-38, [460, 420], none, none, none, none⟩

/-- A bare one-block tower overlapping the character box at (100, 460). -/
def overlapObst : Obst := ⟨110, [460], none, none, none, none⟩

/-- A bare three-block tower ahead of the character and on screen. -/
def tallObst : Obst := ⟨300, [460, 420, 380], none, none, none, none⟩

/-! ## Helper lemmas: the game tick -/

lemma makeObstacleMad_x (m : List (String × Img)) (now : ℚ) (o : Obst) :
    (makeObstacleMad m now o).x = o.x := by
  unfold makeObstacleMad
  split
  · split <;> simp
  · simp

lemma makeObstacleMad_blocks (m : List (String × Img)) (now : ℚ) (o : Obst) :
    (makeObstacleMad m now o).blocks = o.blocks := by
  unfold makeObstacleMad
  split
  · split <;> simp
  · simp

lemma restoreIfExpired_x (now : ℚ) (o : Obst) :
    (restoreIfExpired now o).x = o.x := by
  unfold restoreIfExpired
  split
  · split <;> simp
  · simp

lemma restoreIfExpired_blocks (now : ℚ) (o : Obst) :
    (restoreIfExpired now o).blocks = o.blocks := by
  unfold restoreIfExpired
  split
  · split <;> simp
  · simp

lemma checkCollision_far (cx cy : ℚ) (o : Obst) (h : cx + CHARACTER_SIZE ≤ o.x) :
    checkCollision cx cy o = false := by
  unfold checkCollision
  rw [if_neg]
  intro hc
  exact absurd hc.1 (not_lt.mpr h)

lemma processObstacle_frame (now : ℚ) (s : GameSt) (o : Obst) :
    (processObstacle now s o).2.1.obstacleTimer = s.obstacleTimer ∧
    (processObstacle now s o).2.1.obstacleSpacing = s.obstacleSpacing ∧
    (processObstacle now s o).2.1.characterX = s.characterX ∧
    (processObstacle now s o).2.1.characterY = s.characterY ∧
    (processObstacle now s o).2.1.obstacles = s.obstacles ∧
    (processObstacle now s o).2.1.madObstacleImages = s.madObstacleImages := by
  unfold processObstacle gameOver
  by_cases hrem : o.x - OBSTACLE_SPEED + BLOCK_SIZE < 0 <;>
    simp only [hrem, decide_eq_true_eq, ite_true, ite_false, decide_eq_false_iff_not] <;>
    split_ifs <;> simp_all

lemma processObstacle_score (now : ℚ) (s : GameSt) (o : Obst) :
    (processObstacle now s o).2.1.score =
      s.score + (if o.x - OBSTACLE_SPEED + BLOCK_SIZE < 0 then o.blocks.length else 0) := by
  unfold processObstacle gameOver
  by_cases hrem : o.x - OBSTACLE_SPEED + BLOCK_SIZE < 0 <;>
    simp only [hrem, decide_eq_true_eq, ite_true, ite_false, decide_eq_false_iff_not] <;>
    split_ifs <;> simp_all

lemma processObstacle_kept_none (now : ℚ) (s : GameSt) (o : Obst) :
    ((processObstacle now s o).1 = none ↔ o.x - OBSTACLE_SPEED + BLOCK_SIZE < 0) := by
  unfold processObstacle gameOver
  by_cases hrem : o.x - OBSTACLE_SPEED + BLOCK_SIZE < 0 <;>
    simp only [hrem, decide_eq_true_eq, ite_true, ite_false, decide_eq_false_iff_not] <;>
    split_ifs <;> simp_all

lemma processObstacle_kept_some (now : ℚ) (s : GameSt) (o : Obst) (o' : Obst)
    (h : (processObstacle now s o).1 = some o') :
    o'.x = o.x - OBSTACLE_SPEED ∧ o'.blocks = o.blocks := by
  unfold processObstacle gameOver at h
  by_cases hrem : o.x - OBSTACLE_SPEED + BLOCK_SIZE < 0 <;>
    simp only [hrem, decide_eq_true_eq, ite_true, ite_false, decide_eq_false_iff_not] at h <;>
    split_ifs at h <;> simp only [Option.some.injEq] at h <;>
    first
      | exact absurd h (by simp)
      | (rw [← h]
         exact ⟨by simp [restoreIfExpired_x, makeObstacleMad_x],
           by simp [restoreIfExpired_blocks, makeObstacleMad_blocks]⟩)

lemma processObstacle_flagTrue (now : ℚ) (s : GameSt) (o : Obst)
    (h : s.isInCollision = true) :
    (processObstacle now s o).2.1.lives = s.lives ∧
    (processObstacle now s o).2.1.isInCollision = true ∧
    (processObstacle now s o).2.1.state = s.state ∧
    (processObstacle now s o).2.2 = false := by
  unfold processObstacle gameOver
  by_cases hrem : o.x - OBSTACLE_SPEED + BLOCK_SIZE < 0 <;>
    simp only [hrem, decide_eq_true_eq, ite_true, ite_false, decide_eq_false_iff_not] <;>
    split_ifs <;> simp_all

lemma processObstacle_lives (now : ℚ) (s : GameSt) (o : Obst) :
    ((processObstacle now s o).2.1.lives = s.lives ∧
      (processObstacle now s o).2.1.isInCollision = s.isInCollision ∧
      (processObstacle now s o).2.2 = false) ∨
    ((processObstacle now s o).2.1.lives = s.lives - 1 ∧
      (processObstacle now s o).2.1.isInCollision = true ∧
      s.isInCollision = false) := by
  unfold processObstacle gameOver
  by_cases hrem : o.x - OBSTACLE_SPEED + BLOCK_SIZE < 0 <;>
    simp only [hrem, decide_eq_true_eq, ite_true, ite_false, decide_eq_false_iff_not] <;>
    split_ifs <;> simp_all

lemma processObstacle_state_of_noHalt (now : ℚ) (s : GameSt) (o : Obst)
    (h : (processObstacle now s o).2.2 = false) :
    (processObstacle now s o).2.1.state = s.state := by
  unfold processObstacle gameOver at h ⊢
  by_cases hrem : o.x - OBSTACLE_SPEED + BLOCK_SIZE < 0 <;>
    simp only [hrem, decide_eq_true_eq, ite_true, ite_false, decide_eq_false_iff_not] at h ⊢ <;>
    split_ifs at h ⊢ <;> simp_all

lemma processObstacle_far (now : ℚ) (s : GameSt) (o : Obst)
    (hFar : s.characterX + CHARACTER_SIZE ≤ o.x - OBSTACLE_SPEED)
    (hOn : 0 ≤ o.x - OBSTACLE_SPEED + BLOCK_SIZE) (hMad : o.madUntil = none) :
    processObstacle now s o = (some { o with x := o.x - OBSTACLE_SPEED }, s, false) := by
  have hcc : checkCollision s.characterX s.characterY { o with x := o.x - OBSTACLE_SPEED } = false :=
    checkCollision_far _ _ _ (by simpa using hFar)
  unfold processObstacle
  by_cases hrem : o.x - OBSTACLE_SPEED + BLOCK_SIZE < 0
  · exact absurd hrem (not_lt.mpr hOn)
  · simp only [hrem, decide_eq_true_eq, ite_true, ite_false, decide_eq_false_iff_not]
    rw [if_neg]
    · simp [restoreIfExpired, hMad]
    · intro hc
      rw [hcc] at hc
      exact absurd hc.2 (by simp)

lemma moveObstacles_frame (now : ℚ) (l : List Obst) (s : GameSt) :
    (moveObstacles now l s).2.1.obstacleTimer = s.obstacleTimer ∧
    (moveObstacles now l s).2.1.obstacleSpacing = s.obstacleSpacing ∧
    (moveObstacles now l s).2.1.characterX = s.characterX ∧
    (moveObstacles now l s).2.1.characterY = s.characterY := by
  induction l generalizing s with
  | nil => simp [moveObstacles]
  | cons o rest ih =>
    obtain ⟨i1, i2, i3, i4⟩ := ih s
    unfold moveObstacles
    rcases hrec : moveObstacles now rest s with ⟨rest', s', h'⟩
    rw [hrec] at i1 i2 i3 i4
    cases h' with
    | true => simpa using ⟨i1, i2, i3, i4⟩
    | false =>
      obtain ⟨p1, p2, p3, p4, _, _⟩ := processObstacle_frame now s' o
      rcases hp : processObstacle now s' o with ⟨o?, s'', h''⟩
      rw [hp] at p1 p2 p3 p4
      cases o? <;> simp_all

lemma moveObstacles_flagTrue (now : ℚ) (l : List Obst) (s : GameSt)
    (h : s.isInCollision = true) :
    (moveObstacles now l s).2.1.lives = s.lives ∧
    (moveObstacles now l s).2.1.isInCollision = true ∧
    (moveObstacles now l s).2.1.state = s.state ∧
    (moveObstacles now l s).2.2 = false := by
  induction l generalizing s with
  | nil => simpa [moveObstacles] using h
  | cons o rest ih =>
    obtain ⟨i1, i2, i3, i4⟩ := ih s h
    unfold moveObstacles
    rcases hrec : moveObstacles now rest s with ⟨rest', s', h'⟩
    rw [hrec] at i1 i2 i3 i4
    cases h' with
    | true => simp_all
    | false =>
      obtain ⟨p1, p2, p3, p4⟩ := processObstacle_flagTrue now s' o i2
      rcases hp : processObstacle now s' o with ⟨o?, s'', h''⟩
      rw [hp] at p1 p2 p3 p4
      cases o? <;> simp_all

lemma moveObstacles_lives (now : ℚ) (l : List Obst) (s : GameSt) :
    ((moveObstacles now l s).2.1.lives = s.lives ∧
      (moveObstacles now l s).2.1.isInCollision = s.isInCollision) ∨
    ((moveObstacles now l s).2.1.lives = s.lives - 1 ∧
      (moveObstacles now l s).2.1.isInCollision = true ∧
      s.isInCollision = false) := by
  induction l generalizing s with
  | nil => simp [moveObstacles]
  | cons o rest ih =>
    unfold moveObstacles
    rcases hrec : moveObstacles now rest s with ⟨rest', s', h'⟩
    have ihs := ih s
    rw [hrec] at ihs
    cases h' with
    | true => simpa using ihs
    | false =>
      have pls := processObstacle_lives now s' o
      rcases hp : processObstacle now s' o with ⟨o?, s'', h''⟩
      rw [hp] at pls
      have goal : (s''.lives = s.lives ∧ s''.isInCollision = s.isInCollision) ∨
          (s''.lives = s.lives - 1 ∧ s''.isInCollision = true ∧ s.isInCollision = false) := by
        rcases ihs with ⟨e1, e2⟩ | ⟨e1, e2, e3⟩ <;>
          rcases pls with ⟨f1, f2, f3⟩ | ⟨f1, f2, f3⟩
        · exact Or.inl ⟨f1.trans e1, f2.trans e2⟩
        · refine Or.inr ⟨by rw [f1, e1], f2, ?_⟩
          rw [← e2]; exact f3
        · exact Or.inr ⟨by rw [f1, e1], f2.trans e2, e3⟩
        · exact absurd (e2.symm.trans f3) (by simp)
      simp only [hp]
      cases o? <;> simpa using goal

lemma moveObstacles_score_mono (now : ℚ) (l : List Obst) (s : GameSt) :
    s.score ≤ (moveObstacles now l s).2.1.score := by
  induction l generalizing s with
  | nil => simp [moveObstacles]
  | cons o rest ih =>
    unfold moveObstacles
    rcases hrec : moveObstacles now rest s with ⟨rest', s', h'⟩
    have ihs := ih s
    rw [hrec] at ihs
    cases h' with
    | true => simpa using ihs
    | false =>
      have hsc := processObstacle_score now s' o
      rcases hp : processObstacle now s' o with ⟨o?, s'', h''⟩
      rw [hp] at hsc
      have hle : s'.score ≤ s''.score := by rw [hsc]; split_ifs <;> omega
      simp only [hp]
      cases o? <;> simpa using le_trans ihs hle

lemma moveObstacles_noHalt_spec (now : ℚ) (l : List Obst) (s : GameSt)
    (h : (moveObstacles now l s).2.2 = false) :
    (moveObstacles now l s).2.1.score =
      s.score + ((l.filter (fun o => decide (o.x - OBSTACLE_SPEED + BLOCK_SIZE < 0))).map
        (fun o => o.blocks.length)).sum ∧
    (moveObstacles now l s).1.map (fun o => o.x) =
      (l.filter (fun o => decide (0 ≤ o.x - OBSTACLE_SPEED + BLOCK_SIZE))).map
        (fun o => o.x - OBSTACLE_SPEED) := by
  induction l generalizing s with
  | nil => simp [moveObstacles]
  | cons o rest ih =>
    unfold moveObstacles at h ⊢
    rcases hrec : moveObstacles now rest s with ⟨rest', s', h'⟩
    rw [hrec] at h
    cases h' with
    | true => simp at h
    | false =>
      have hrest := ih s (by rw [hrec])
      rw [hrec] at hrest
      have hsc := processObstacle_score now s' o
      have hkn := processObstacle_kept_none now s' o
      rcases hp : processObstacle now s' o with ⟨o?, s'', h''⟩
      rw [hp] at hsc hkn
      simp only [hp] at h ⊢
      by_cases hrem : o.x - OBSTACLE_SPEED + BLOCK_SIZE < 0
      · have hnone : o? = none := by
          cases o? with
          | none => rfl
          | some o2 => simp [hrem] at hkn
        subst hnone
        refine ⟨?_, ?_⟩
        · rw [List.filter_cons, if_pos (by simpa using hrem)]
          simp only [List.map_cons, List.sum_cons]
          rw [hsc, hrest.1, if_pos hrem]
          omega
        · rw [List.filter_cons, if_neg (by simpa using not_le.mpr hrem)]
          simpa using hrest.2
      · have hsome : ∃ o2, o? = some o2 := by
          cases o? with
          | none => exact absurd (hkn.mp rfl) hrem
          | some o2 => exact ⟨o2, rfl⟩
        obtain ⟨o2, rfl⟩ := hsome
        have hxb := processObstacle_kept_some now s' o o2 (by rw [hp])
        refine ⟨?_, ?_⟩
        · rw [List.filter_cons, if_neg (by simpa using hrem)]
          rw [hsc, hrest.1, if_neg hrem]
          omega
        · rw [List.filter_cons, if_pos (by simpa using not_lt.mp hrem)]
          simpa [hxb.1] using hrest.2

lemma moveObstacles_append (now : ℚ) (o : Obst) (o2 : Obst) (s : GameSt)
    (hpo : processObstacle now s o = (some o2, s, false)) :
    ∀ l : List Obst,
      moveObstacles now (l ++ [o]) s =
        ((moveObstacles now l s).1 ++ [o2], (moveObstacles now l s).2.1,
          (moveObstacles now l s).2.2) := by
  intro l
  induction l with
  | nil => simp [moveObstacles, hpo]
  | cons a l ihl =>
    show moveObstacles now (a :: (l ++ [o])) s = _
    unfold moveObstacles
    rw [ihl]
    rcases hrec : moveObstacles now l s with ⟨l', s', h'⟩
    cases h' with
    | true => simp
    | false =>
      rcases hp : processObstacle now s' a with ⟨a?, s3, h3⟩
      simp only [hp]
      cases a? <;> simp

lemma moveObstacles_length_le (now : ℚ) (l : List Obst) (s : GameSt) :
    (moveObstacles now l s).1.length ≤ l.length := by
  induction l generalizing s with
  | nil => simp [moveObstacles]
  | cons o rest ih =>
    unfold moveObstacles
    rcases hrec : moveObstacles now rest s with ⟨rest', s', h'⟩
    have ihs := ih s
    rw [hrec] at ihs
    cases h' with
    | true => simpa using Nat.succ_le_succ ihs
    | false =>
      rcases hp : processObstacle now s' o with ⟨o?, s'', h''⟩
      simp only [hp]
      cases o? with
      | none => simpa using Nat.le_succ_of_le ihs
      | some o2 => simpa using Nat.succ_le_succ ihs

lemma shakePhase_frame (r : TickRand) (s : GameSt) :
    (shakePhase r s).state = s.state ∧
    (shakePhase r s).score = s.score ∧
    (shakePhase r s).difficulty = s.difficulty ∧
    (shakePhase r s).characterX = s.characterX ∧
    (shakePhase r s).characterY = s.characterY ∧
    (shakePhase r s).characterVelocityY = s.characterVelocityY ∧
    (shakePhase r s).canDoubleJump = s.canDoubleJump ∧
    (shakePhase r s).hasDoubleJumped = s.hasDoubleJumped ∧
    (shakePhase r s).lives = s.lives ∧
    (shakePhase r s).isInCollision = s.isInCollision ∧
    (shakePhase r s).floorOffset = s.floorOffset ∧
    (shakePhase r s).obstacles = s.obstacles ∧
    (shakePhase r s).obstacleTimer = s.obstacleTimer ∧
    (shakePhase r s).obstacleSpacing = s.obstacleSpacing ∧
    (shakePhase r s).obstacleSpacingHistory = s.obstacleSpacingHistory ∧
    (shakePhase r s).trees = s.trees ∧
    (shakePhase r s).treeImages = s.treeImages ∧
    (shakePhase r s).treeSpawnCounter = s.treeSpawnCounter ∧
    (shakePhase r s).nextTreeSpawnFrame = s.nextTreeSpawnFrame ∧
    (shakePhase r s).obstacleImages = s.obstacleImages ∧
    (shakePhase r s).madObstacleImages = s.madObstacleImages ∧
    (shakePhase r s).characterRotation = s.characterRotation ∧
    (shakePhase r s).gameOverAnimationTime = s.gameOverAnimationTime := by
  unfold shakePhase
  dsimp only
  split_ifs <;> simp

lemma floorPhase_frame (s : GameSt) :
    (floorPhase s).state = s.state ∧
    (floorPhase s).score = s.score ∧
    (floorPhase s).lives = s.lives ∧
    (floorPhase s).isInCollision = s.isInCollision ∧
    (floorPhase s).characterX = s.characterX ∧
    (floorPhase s).characterY = s.characterY ∧
    (floorPhase s).characterVelocityY = s.characterVelocityY ∧
    (floorPhase s).obstacles = s.obstacles ∧
    (floorPhase s).obstacleTimer = s.obstacleTimer ∧
    (floorPhase s).obstacleSpacing = s.obstacleSpacing ∧
    (floorPhase s).obstacleImages = s.obstacleImages ∧
    (floorPhase s).madObstacleImages = s.madObstacleImages := by
  unfold floorPhase
  simp

lemma physicsPhase_frame (s : GameSt) :
    (physicsPhase s).state = s.state ∧
    (physicsPhase s).score = s.score ∧
    (physicsPhase s).lives = s.lives ∧
    (physicsPhase s).isInCollision = s.isInCollision ∧
    (physicsPhase s).characterX = s.characterX ∧
    (physicsPhase s).obstacles = s.obstacles ∧
    (physicsPhase s).obstacleTimer = s.obstacleTimer ∧
    (physicsPhase s).obstacleSpacing = s.obstacleSpacing ∧
    (physicsPhase s).obstacleImages = s.obstacleImages ∧
    (physicsPhase s).madObstacleImages = s.madObstacleImages := by
  unfold physicsPhase
  dsimp only
  split_ifs <;> simp

lemma spawnPhase_frame (r : TickRand) (s : GameSt) :
    (spawnPhase r s).state = s.state ∧
    (spawnPhase r s).score = s.score ∧
    (spawnPhase r s).lives = s.lives ∧
    (spawnPhase r s).isInCollision = s.isInCollision ∧
    (spawnPhase r s).characterX = s.characterX ∧
    (spawnPhase r s).characterY = s.characterY ∧
    (spawnPhase r s).characterVelocityY = s.characterVelocityY ∧
    (spawnPhase r s).trees = s.trees ∧
    (spawnPhase r s).madObstacleImages = s.madObstacleImages := by
  unfold spawnPhase
  dsimp only
  split_ifs <;> simp

lemma spawnPhase_trigger (r : TickRand) (s : GameSt)
    (h : s.obstacleSpacing ≤ ((s.obstacleTimer + 1 : ℕ) : ℚ)) :
    (spawnPhase r s).obstacleTimer = 0 ∧
    (spawnPhase r s).obstacleSpacing =
      ((round (OBSTACLE_SPACING * (1/2 + 1 * r.spacingU)) : ℤ) : ℚ) ∧
    (spawnPhase r s).obstacles = s.obstacles ++
      [mkObstacle CANVAS_WIDTH ((⌊r.blockU * 9⌋).toNat + 2)
        (getRandomObstacleImage s.obstacleImages r.obImgU).1
        (getRandomObstacleImage s.obstacleImages r.obImgU).2] := by
  unfold spawnPhase
  rw [if_pos h]
  exact ⟨rfl, rfl, rfl⟩

lemma spawnPhase_no_trigger (r : TickRand) (s : GameSt)
    (h : ¬ s.obstacleSpacing ≤ ((s.obstacleTimer + 1 : ℕ) : ℚ)) :
    (spawnPhase r s).obstacleTimer = s.obstacleTimer + 1 ∧
    (spawnPhase r s).obstacleSpacing = s.obstacleSpacing ∧
    (spawnPhase r s).obstacles = s.obstacles := by
  unfold spawnPhase
  rw [if_neg h]
  exact ⟨rfl, rfl, rfl⟩

lemma clearCollisionPhase_frame (s : GameSt) :
    (clearCollisionPhase s).state = s.state ∧
    (clearCollisionPhase s).score = s.score ∧
    (clearCollisionPhase s).lives = s.lives ∧
    (clearCollisionPhase s).characterX = s.characterX ∧
    (clearCollisionPhase s).characterY = s.characterY ∧
    (clearCollisionPhase s).characterVelocityY = s.characterVelocityY ∧
    (clearCollisionPhase s).obstacles = s.obstacles ∧
    (clearCollisionPhase s).obstacleTimer = s.obstacleTimer ∧
    (clearCollisionPhase s).obstacleSpacing = s.obstacleSpacing ∧
    (clearCollisionPhase s).trees = s.trees ∧
    (clearCollisionPhase s).madObstacleImages = s.madObstacleImages := by
  unfold clearCollisionPhase
  split_ifs <;> simp

lemma clearCollisionPhase_flag (s : GameSt) :
    (clearCollisionPhase s).isInCollision = (s.isInCollision && collidingAny s) := by
  unfold clearCollisionPhase
  split_ifs with hc
  · simp [hc.2]
  · rcases Bool.eq_false_or_eq_true s.isInCollision with ht | hf
    · have hcol : collidingAny s = true := by
        by_contra hcc
        exact hc ⟨ht, by simpa using hcc⟩
      simp [hcol, ht]
    · simp [hf]

lemma treePhase_frame (r : TickRand) (s : GameSt) :
    (treePhase r s).state = s.state ∧
    (treePhase r s).score = s.score ∧
    (treePhase r s).lives = s.lives ∧
    (treePhase r s).isInCollision = s.isInCollision ∧
    (treePhase r s).characterX = s.characterX ∧
    (treePhase r s).characterY = s.characterY ∧
    (treePhase r s).characterVelocityY = s.characterVelocityY ∧
    (treePhase r s).obstacles = s.obstacles ∧
    (treePhase r s).obstacleTimer = s.obstacleTimer ∧
    (treePhase r s).obstacleSpacing = s.obstacleSpacing ∧
    (treePhase r s).madObstacleImages = s.madObstacleImages := by
  unfold treePhase
  dsimp only
  cases hgt : getRandomTreeImage s.treeImages r.treeImgU <;>
    simp only [hgt] <;> split_ifs <;> simp

lemma treeMovePhase_frame (s : GameSt) :
    (treeMovePhase s).state = s.state ∧
    (treeMovePhase s).score = s.score ∧
    (treeMovePhase s).lives = s.lives ∧
    (treeMovePhase s).isInCollision = s.isInCollision ∧
    (treeMovePhase s).characterX = s.characterX ∧
    (treeMovePhase s).characterY = s.characterY ∧
    (treeMovePhase s).characterVelocityY = s.characterVelocityY ∧
    (treeMovePhase s).obstacles = s.obstacles ∧
    (treeMovePhase s).obstacleTimer = s.obstacleTimer ∧
    (treeMovePhase s).obstacleSpacing = s.obstacleSpacing ∧
    (treeMovePhase s).madObstacleImages = s.madObstacleImages := by
  unfold treeMovePhase
  dsimp only
  simp

lemma movePhase_spec (now : ℚ) (s : GameSt) :
    movePhase now s =
      { (moveObstacles now s.obstacles s).2.1 with
          obstacles := (moveObstacles now s.obstacles s).1 } := by
  unfold movePhase
  rcases h : moveObstacles now s.obstacles s with ⟨obs, s2, hb⟩
  rfl

lemma update_eq_playing (r : TickRand) (now : ℚ) (s : GameSt)
    (h : s.state = GState.PLAYING) :
    update r now s = movePhase now (treeMovePhase (treePhase r (clearCollisionPhase
      (spawnPhase r (physicsPhase (floorPhase (shakePhase r s))))))) := by
  unfold update
  rw [if_neg (by simp [h]), if_neg (by simp [(shakePhase_frame r s).1, h])]

lemma update_eq_idle (r : TickRand) (now : ℚ) (s : GameSt)
    (h : s.state = GState.START ∨ s.state = GState.GAME_OVER) :
    update r now s = shakePhase r s := by
  unfold update
  have hs : s.state ≠ GState.GAME_OVER_ANIMATING := by
    rcases h with h | h <;> simp [h]
  rw [if_neg hs, if_pos]
  have hst := (shakePhase_frame r s).1
  rcases h with h | h <;> rw [hst, h] <;> simp


lemma processObstacle_halt_state (now : ℚ) (s : GameSt) (o : Obst)
    (h : (processObstacle now s o).2.2 = true) :
    (processObstacle now s o).2.1.state = GState.GAME_OVER_ANIMATING := by
  unfold processObstacle gameOver at h ⊢
  by_cases hrem : o.x - OBSTACLE_SPEED + BLOCK_SIZE < 0 <;>
    simp only [hrem, decide_eq_true_eq, ite_true, ite_false, decide_eq_false_iff_not] at h ⊢ <;>
    split_ifs at h ⊢ <;> simp_all

lemma moveObstacles_halt_state (now : ℚ) (l : List Obst) (s : GameSt)
    (h : (moveObstacles now l s).2.2 = true) :
    (moveObstacles now l s).2.1.state = GState.GAME_OVER_ANIMATING := by
  induction l generalizing s with
  | nil => simp [moveObstacles] at h
  | cons o rest ih =>
    unfold moveObstacles at h ⊢
    rcases hrec : moveObstacles now rest s with ⟨rest', s', h'⟩
    rw [hrec] at h
    have ihs := ih s
    rw [hrec] at ihs
    cases h' with
    | true => simpa using ihs rfl
    | false =>
      have hst := processObstacle_halt_state now s' o
      rcases hp : processObstacle now s' o with ⟨o?, s'', h''⟩
      rw [hp] at hst
      simp only [hp] at h ⊢
      cases o? <;> simp_all

lemma treePhases_frame (r : TickRand) (t : GameSt) :
    (treeMovePhase (treePhase r t)).state = t.state ∧
    (treeMovePhase (treePhase r t)).score = t.score ∧
    (treeMovePhase (treePhase r t)).lives = t.lives ∧
    (treeMovePhase (treePhase r t)).isInCollision = t.isInCollision ∧
    (treeMovePhase (treePhase r t)).characterX = t.characterX ∧
    (treeMovePhase (treePhase r t)).characterY = t.characterY ∧
    (treeMovePhase (treePhase r t)).characterVelocityY = t.characterVelocityY ∧
    (treeMovePhase (treePhase r t)).obstacles = t.obstacles ∧
    (treeMovePhase (treePhase r t)).obstacleTimer = t.obstacleTimer ∧
    (treeMovePhase (treePhase r t)).obstacleSpacing = t.obstacleSpacing ∧
    (treeMovePhase (treePhase r t)).madObstacleImages = t.madObstacleImages := by
  obtain ⟨a1, a2, a3, a4, a5, a6, a7, a8, a9, a10, a11⟩ := treePhase_frame r t
  obtain ⟨b1, b2, b3, b4, b5, b6, b7, b8, b9, b10, b11⟩ := treeMovePhase_frame (treePhase r t)
  exact ⟨b1.trans a1, b2.trans a2, b3.trans a3, b4.trans a4, b5.trans a5, b6.trans a6,
    b7.trans a7, b8.trans a8, b9.trans a9, b10.trans a10, b11.trans a11⟩

lemma prePhases_frame (r : TickRand) (s : GameSt) :
    (physicsPhase (floorPhase (shakePhase r s))).state = s.state ∧
    (physicsPhase (floorPhase (shakePhase r s))).score = s.score ∧
    (physicsPhase (floorPhase (shakePhase r s))).lives = s.lives ∧
    (physicsPhase (floorPhase (shakePhase r s))).isInCollision = s.isInCollision ∧
    (physicsPhase (floorPhase (shakePhase r s))).characterX = s.characterX ∧
    (physicsPhase (floorPhase (shakePhase r s))).obstacles = s.obstacles ∧
    (physicsPhase (floorPhase (shakePhase r s))).obstacleTimer = s.obstacleTimer ∧
    (physicsPhase (floorPhase (shakePhase r s))).obstacleSpacing = s.obstacleSpacing ∧
    (physicsPhase (floorPhase (shakePhase r s))).obstacleImages = s.obstacleImages ∧
    (physicsPhase (floorPhase (shakePhase r s))).madObstacleImages = s.madObstacleImages := by
  obtain ⟨a1, a2, _, a4, _, _, _, _, a9, a10, _, a12, a13, a14, _, _, _, _, _, a20,
    a21, _, _⟩ := shakePhase_frame r s
  obtain ⟨b1, b2, b3, b4, b5, _, _, b8, b9, b10, b11, b12⟩ :=
    floorPhase_frame (shakePhase r s)
  obtain ⟨c1, c2, c3, c4, c5, c6, c7, c8, c9, c10⟩ :=
    physicsPhase_frame (floorPhase (shakePhase r s))
  exact ⟨(c1.trans b1).trans a1, (c2.trans b2).trans a2, (c3.trans b3).trans a9,
    (c4.trans b4).trans a10, (c5.trans b5).trans a4, (c6.trans b8).trans a12,
    (c7.trans b9).trans a13, (c8.trans b10).trans a14, (c9.trans b11).trans a20,
    (c10.trans b12).trans a21⟩

lemma fullPre_fields (r : TickRand) (s : GameSt) :
    (treeMovePhase (treePhase r (clearCollisionPhase (spawnPhase r (physicsPhase
      (floorPhase (shakePhase r s))))))).state = s.state ∧
    (treeMovePhase (treePhase r (clearCollisionPhase (spawnPhase r (physicsPhase
      (floorPhase (shakePhase r s))))))).score = s.score ∧
    (treeMovePhase (treePhase r (clearCollisionPhase (spawnPhase r (physicsPhase
      (floorPhase (shakePhase r s))))))).lives = s.lives ∧
    (treeMovePhase (treePhase r (clearCollisionPhase (spawnPhase r (physicsPhase
      (floorPhase (shakePhase r s))))))).characterX = s.characterX ∧
    (treeMovePhase (treePhase r (clearCollisionPhase (spawnPhase r (physicsPhase
      (floorPhase (shakePhase r s))))))).madObstacleImages = s.madObstacleImages ∧
    (treeMovePhase (treePhase r (clearCollisionPhase (spawnPhase r (physicsPhase
      (floorPhase (shakePhase r s))))))).obstacles =
      (spawnPhase r (physicsPhase (floorPhase (shakePhase r s)))).obstacles ∧
    (treeMovePhase (treePhase r (clearCollisionPhase (spawnPhase r (physicsPhase
      (floorPhase (shakePhase r s))))))).obstacleTimer =
      (spawnPhase r (physicsPhase (floorPhase (shakePhase r s)))).obstacleTimer ∧
    (treeMovePhase (treePhase r (clearCollisionPhase (spawnPhase r (physicsPhase
      (floorPhase (shakePhase r s))))))).obstacleSpacing =
      (spawnPhase r (physicsPhase (floorPhase (shakePhase r s)))).obstacleSpacing ∧
    (treeMovePhase (treePhase r (clearCollisionPhase (spawnPhase r (physicsPhase
      (floorPhase (shakePhase r s))))))).isInCollision =
      (s.isInCollision && collidingAfterSpawn r s) := by
  obtain ⟨p1, p2, p3, p4, p5, p6, p7, p8, p9, p10⟩ := prePhases_frame r s
  obtain ⟨d1, d2, d3, d4, d5x, d5y, d5v, d6, d7⟩ :=
    spawnPhase_frame r (physicsPhase (floorPhase (shakePhase r s)))
  obtain ⟨e1, e2, e3, e4, e5, e6, e7, e8, e9, e10, e11⟩ :=
    clearCollisionPhase_frame (spawnPhase r (physicsPhase (floorPhase (shakePhase r s))))
  have eflag := clearCollisionPhase_flag (spawnPhase r (physicsPhase (floorPhase (shakePhase r s))))
  obtain ⟨f1, f2, f3, f4, f5, f6, f7, f8, f9, f10, f11⟩ :=
    treePhases_frame r (clearCollisionPhase (spawnPhase r (physicsPhase (floorPhase (shakePhase r s)))))
  refine ⟨((f1.trans e1).trans d1).trans p1, ((f2.trans e2).trans d2).trans p2,
    ((f3.trans e3).trans d3).trans p3, ((f5.trans e4).trans d5x).trans p5,
    ((f11.trans e11).trans d7).trans p10, f8.trans e7, f9.trans e8, f10.trans e9, ?_⟩
  rw [f4, eflag, d4, p4]
  rfl

lemma update_score_mono (r : TickRand) (now : ℚ) (s : GameSt) :
    s.score ≤ (update r now s).score := by
  by_cases h1 : s.state = GState.GAME_OVER_ANIMATING
  · unfold update
    rw [if_pos h1]
    unfold gameOverAnimPhase
    dsimp only
    split_ifs <;> simp
  · unfold update
    rw [if_neg h1]
    dsimp only
    by_cases h2 : (shakePhase r s).state ≠ GState.PLAYING
    · rw [if_pos h2]
      exact le_of_eq (shakePhase_frame r s).2.1.symm
    · rw [if_neg h2]
      have hq := (fullPre_fields r s).2.1
      rw [movePhase_spec]
      have hmono := moveObstacles_score_mono now
        (treeMovePhase (treePhase r (clearCollisionPhase (spawnPhase r (physicsPhase
          (floorPhase (shakePhase r s))))))).obstacles
        (treeMovePhase (treePhase r (clearCollisionPhase (spawnPhase r (physicsPhase
          (floorPhase (shakePhase r s)))))))
      calc s.score = _ := hq.symm
        _ ≤ _ := hmono

lemma processObstacle_noHalt_of_lives (now : ℚ) (s : GameSt) (o : Obst)
    (hl : 2 ≤ s.lives) :
    (processObstacle now s o).2.2 = false := by
  unfold processObstacle gameOver
  by_cases hrem : o.x - OBSTACLE_SPEED + BLOCK_SIZE < 0 <;>
    simp only [hrem, decide_eq_true_eq, ite_true, ite_false, decide_eq_false_iff_not] <;>
    split_ifs <;> simp_all <;> omega

lemma moveObstacles_noHalt_of_lives (now : ℚ) (l : List Obst) (s : GameSt)
    (hl : 2 ≤ s.lives) :
    (moveObstacles now l s).2.2 = false := by
  induction l generalizing s with
  | nil => simp [moveObstacles]
  | cons o rest ih =>
    unfold moveObstacles
    have ihs := ih s hl
    have hlv := moveObstacles_lives now rest s
    rcases hrec : moveObstacles now rest s with ⟨rest', s', h'⟩
    rw [hrec] at ihs hlv
    cases h' with
    | true => simp at ihs
    | false =>
      rcases hlv with ⟨e1, _⟩ | ⟨e1, e2, _⟩
      · have hp := processObstacle_noHalt_of_lives now s' o (by rw [e1]; exact hl)
        rcases hq : processObstacle now s' o with ⟨o?, s'', h''⟩
        rw [hq] at hp
        simp only [hq]
        cases o? <;> simpa using hp
      · have hp := (processObstacle_flagTrue now s' o e2).2.2.2
        rcases hq : processObstacle now s' o with ⟨o?, s'', h''⟩
        rw [hq] at hp
        simp only [hq]
        cases o? <;> simpa using hp

lemma moveObstacles_state_of_noHalt (now : ℚ) (l : List Obst) (s : GameSt)
    (h : (moveObstacles now l s).2.2 = false) :
    (moveObstacles now l s).2.1.state = s.state := by
  induction l generalizing s with
  | nil => simp [moveObstacles]
  | cons o rest ih =>
    unfold moveObstacles at h ⊢
    have ihs := ih s
    rcases hrec : moveObstacles now rest s with ⟨rest', s', h'⟩
    rw [hrec] at h ihs
    cases h' with
    | true => simp at h
    | false =>
      have hst := processObstacle_state_of_noHalt now s' o
      rcases hq : processObstacle now s' o with ⟨o?, s'', h''⟩
      rw [hq] at hst
      simp only [hq] at h ⊢
      cases o? <;> simp_all

lemma update_keeps_playing (r : TickRand) (now : ℚ) (s : GameSt)
    (hPlay : s.state = GState.PLAYING) (hl : 2 ≤ s.lives) :
    (update r now s).state = GState.PLAYING := by
  rw [update_eq_playing r now s hPlay, movePhase_spec]
  obtain ⟨q1, _, q3, _⟩ := fullPre_fields r s
  have hnh := moveObstacles_noHalt_of_lives now
    (treeMovePhase (treePhase r (clearCollisionPhase (spawnPhase r (physicsPhase
      (floorPhase (shakePhase r s))))))).obstacles
    (treeMovePhase (treePhase r (clearCollisionPhase (spawnPhase r (physicsPhase
      (floorPhase (shakePhase r s)))))))
    (by rw [q3]; exact hl)
  have hst := moveObstacles_state_of_noHalt now
    (treeMovePhase (treePhase r (clearCollisionPhase (spawnPhase r (physicsPhase
      (floorPhase (shakePhase r s))))))).obstacles
    (treeMovePhase (treePhase r (clearCollisionPhase (spawnPhase r (physicsPhase
      (floorPhase (shakePhase r s)))))))
    hnh
  show (moveObstacles now _ _).2.1.state = GState.PLAYING
  rw [hst, q1, hPlay]

lemma update_latched (r : TickRand) (now : ℚ) (s : GameSt)
    (hPlay : s.state = GState.PLAYING) (hflag : s.isInCollision = true)
    (hcol : collidingAfterSpawn r s = true) :
    (update r now s).lives = s.lives ∧
    (update r now s).isInCollision = true ∧
    (update r now s).state = GState.PLAYING := by
  rw [update_eq_playing r now s hPlay, movePhase_spec]
  obtain ⟨q1, _, q3, _, _, _, _, _, q9⟩ := fullPre_fields r s
  have hpre : (treeMovePhase (treePhase r (clearCollisionPhase (spawnPhase r (physicsPhase
      (floorPhase (shakePhase r s))))))).isInCollision = true := by
    rw [q9, hflag, hcol]; rfl
  obtain ⟨i1, i2, i3, _⟩ := moveObstacles_flagTrue now
    (treeMovePhase (treePhase r (clearCollisionPhase (spawnPhase r (physicsPhase
      (floorPhase (shakePhase r s))))))).obstacles
    (treeMovePhase (treePhase r (clearCollisionPhase (spawnPhase r (physicsPhase
      (floorPhase (shakePhase r s)))))))
    hpre
  exact ⟨i1.trans q3, i2, i3.trans (q1.trans hPlay)⟩

lemma update_lives_cases (r : TickRand) (now : ℚ) (s : GameSt)
    (hPlay : s.state = GState.PLAYING) :
    ((update r now s).lives = s.lives ∧
      (update r now s).isInCollision = (s.isInCollision && collidingAfterSpawn r s)) ∨
    ((update r now s).lives = s.lives - 1 ∧
      (update r now s).isInCollision = true ∧
      (s.isInCollision && collidingAfterSpawn r s) = false) := by
  rw [update_eq_playing r now s hPlay, movePhase_spec]
  obtain ⟨_, _, q3, _, _, _, _, _, q9⟩ := fullPre_fields r s
  have hlv := moveObstacles_lives now
    (treeMovePhase (treePhase r (clearCollisionPhase (spawnPhase r (physicsPhase
      (floorPhase (shakePhase r s))))))).obstacles
    (treeMovePhase (treePhase r (clearCollisionPhase (spawnPhase r (physicsPhase
      (floorPhase (shakePhase r s)))))))
  rcases hlv with ⟨e1, e2⟩ | ⟨e1, e2, e3⟩
  · exact Or.inl ⟨e1.trans q3, e2.trans q9⟩
  · refine Or.inr ⟨by rw [e1, q3], e2, ?_⟩
    rw [← q9]; exact e3

lemma processObstacle_no_hit (now : ℚ) (s : GameSt) (o : Obst)
    (hflag : s.isInCollision = false)
    (hcc : checkCollision s.characterX s.characterY
      { o with x := o.x - OBSTACLE_SPEED } = false) :
    (processObstacle now s o).2.1.lives = s.lives ∧
    (processObstacle now s o).2.1.isInCollision = false ∧
    (processObstacle now s o).2.1.state = s.state ∧
    (processObstacle now s o).2.2 = false := by
  unfold processObstacle gameOver
  by_cases hrem : o.x - OBSTACLE_SPEED + BLOCK_SIZE < 0 <;>
    simp only [hrem, decide_eq_true_eq, ite_true, ite_false, decide_eq_false_iff_not] <;>
    split_ifs <;> simp_all

lemma processObstacle_hit (now : ℚ) (s : GameSt) (o : Obst)
    (hflag : s.isInCollision = false)
    (hcc : checkCollision s.characterX s.characterY
      { o with x := o.x - OBSTACLE_SPEED } = true) :
    (processObstacle now s o).2.1.lives = s.lives - 1 ∧
    (processObstacle now s o).2.1.isInCollision = true := by
  unfold processObstacle gameOver
  by_cases hrem : o.x - OBSTACLE_SPEED + BLOCK_SIZE < 0 <;>
    simp only [hrem, decide_eq_true_eq, ite_true, ite_false, decide_eq_false_iff_not] <;>
    split_ifs <;> simp_all

lemma moveObstacles_no_hit (now : ℚ) (l : List Obst) (s : GameSt)
    (hflag : s.isInCollision = false)
    (hcc : ∀ o ∈ l, checkCollision s.characterX s.characterY
      { o with x := o.x - OBSTACLE_SPEED } = false) :
    (moveObstacles now l s).2.1.lives = s.lives ∧
    (moveObstacles now l s).2.1.isInCollision = false ∧
    (moveObstacles now l s).2.1.state = s.state ∧
    (moveObstacles now l s).2.2 = false := by
  induction l with
  | nil => simp [moveObstacles, hflag]
  | cons o rest ih =>
    have ihr := ih (fun o2 ho2 => hcc o2 (List.mem_cons_of_mem o ho2))
    unfold moveObstacles
    rcases hrec : moveObstacles now rest s with ⟨rest', s', h'⟩
    rw [hrec] at ihr
    obtain ⟨e1, e2, e3, e4⟩ := ihr
    obtain ⟨_, _, f3, f4⟩ := moveObstacles_frame now rest s
    rw [hrec] at f3 f4
    cases h' with
    | true => simp at e4
    | false =>
      have hcc' : checkCollision s'.characterX s'.characterY
          { o with x := o.x - OBSTACLE_SPEED } = false := by
        rw [show s'.characterX = s.characterX from f3,
          show s'.characterY = s.characterY from f4]
        exact hcc o (List.mem_cons_self o rest)
      have hp := processObstacle_no_hit now s' o (show s'.isInCollision = false from e2) hcc'
      rcases hq : processObstacle now s' o with ⟨o?, s'', h''⟩
      rw [hq] at hp
      obtain ⟨p1, p2, p3, p4⟩ := hp
      simp only [hq]
      cases o? <;>
        exact ⟨p1.trans (show s'.lives = s.lives from e1), p2,
          p3.trans (show s'.state = s.state from e3), p4⟩

lemma moveObstacles_fresh (now : ℚ) (l : List Obst) (s : GameSt)
    (hflag : s.isInCollision = false)
    (hhit : ∃ o ∈ l, checkCollision s.characterX s.characterY
      { o with x := o.x - OBSTACLE_SPEED } = true) :
    (moveObstacles now l s).2.1.lives = s.lives - 1 ∧
    (moveObstacles now l s).2.1.isInCollision = true := by
  induction l with
  | nil =>
    obtain ⟨o, ho, _⟩ := hhit
    simp at ho
  | cons o rest ih =>
    unfold moveObstacles
    rcases hrec : moveObstacles now rest s with ⟨rest', s', h'⟩
    by_cases hrest : ∃ o2 ∈ rest, checkCollision s.characterX s.characterY
        { o2 with x := o2.x - OBSTACLE_SPEED } = true
    · have ihr := ih hrest
      rw [hrec] at ihr
      obtain ⟨e1, e2⟩ := ihr
      cases h' with
      | true => exact ⟨e1, e2⟩
      | false =>
        obtain ⟨p1, p2, _, _⟩ :=
          processObstacle_flagTrue now s' o (show s'.isInCollision = true from e2)
        rcases hp : processObstacle now s' o with ⟨o?, s'', h''⟩
        rw [hp] at p1 p2
        simp only [hp]
        cases o? <;> exact ⟨p1.trans (show s'.lives = s.lives - 1 from e1), p2⟩
    · have hohit : checkCollision s.characterX s.characterY
          { o with x := o.x - OBSTACLE_SPEED } = true := by
        obtain ⟨o2, ho2, h2⟩ := hhit
        rcases List.mem_cons.mp ho2 with heq | ho2
        · subst heq
          exact h2
        · exact absurd ⟨o2, ho2, h2⟩ hrest
      have hnone : ∀ o2 ∈ rest, checkCollision s.characterX s.characterY
          { o2 with x := o2.x - OBSTACLE_SPEED } = false := by
        intro o2 ho2
        by_contra hcon
        exact hrest ⟨o2, ho2, by simpa using hcon⟩
      have hnh := moveObstacles_no_hit now rest s hflag hnone
      rw [hrec] at hnh
      obtain ⟨e1, e2, e3, e4⟩ := hnh
      obtain ⟨_, _, f3, f4⟩ := moveObstacles_frame now rest s
      rw [hrec] at f3 f4
      cases h' with
      | true => simp at e4
      | false =>
        have hcc' : checkCollision s'.characterX s'.characterY
            { o with x := o.x - OBSTACLE_SPEED } = true := by
          rw [show s'.characterX = s.characterX from f3,
            show s'.characterY = s.characterY from f4]
          exact hohit
        obtain ⟨p1, p2⟩ :=
          processObstacle_hit now s' o (show s'.isInCollision = false from e2) hcc'
        rcases hp : processObstacle now s' o with ⟨o?, s'', h''⟩
        rw [hp] at p1 p2
        simp only [hp]
        cases o? <;>
          exact ⟨p1.trans (by rw [show s'.lives = s.lives from e1]), p2⟩

lemma fullPre_charY (r : TickRand) (s : GameSt) :
    (treeMovePhase (treePhase r (clearCollisionPhase (spawnPhase r (physicsPhase
      (floorPhase (shakePhase r s))))))).characterY =
      (physicsPhase (floorPhase (shakePhase r s))).characterY := by
  obtain ⟨_, _, _, _, _, d6, _⟩ :=
    spawnPhase_frame r (physicsPhase (floorPhase (shakePhase r s)))
  obtain ⟨_, _, _, _, e5, _⟩ :=
    clearCollisionPhase_frame (spawnPhase r (physicsPhase (floorPhase (shakePhase r s))))
  obtain ⟨_, _, _, _, _, f6, _⟩ :=
    treePhases_frame r (clearCollisionPhase (spawnPhase r (physicsPhase
      (floorPhase (shakePhase r s)))))
  exact (f6.trans e5).trans d6

lemma update_fresh_hit (r : TickRand) (now : ℚ) (s : GameSt)
    (hPlay : s.state = GState.PLAYING) (hflag : s.isInCollision = false)
    (hhit : freshOverlapMoved r s) :
    (update r now s).lives = s.lives - 1 ∧
    (update r now s).isInCollision = true := by
  rw [update_eq_playing r now s hPlay, movePhase_spec]
  obtain ⟨q1, q2, q3, q4, q5, q6, q7, q8, q9⟩ := fullPre_fields r s
  have htflag : (treeMovePhase (treePhase r (clearCollisionPhase (spawnPhase r (physicsPhase
      (floorPhase (shakePhase r s))))))).isInCollision = false := by
    rw [q9, hflag]
    rfl
  have hx : (treeMovePhase (treePhase r (clearCollisionPhase (spawnPhase r (physicsPhase
      (floorPhase (shakePhase r s))))))).characterX =
      (physicsPhase (floorPhase (shakePhase r s))).characterX := by
    rw [q4]
    exact ((prePhases_frame r s).2.2.2.2.1).symm
  have hthit : ∃ o ∈ (treeMovePhase (treePhase r (clearCollisionPhase (spawnPhase r
      (physicsPhase (floorPhase (shakePhase r s))))))).obstacles,
      checkCollision
        (treeMovePhase (treePhase r (clearCollisionPhase (spawnPhase r (physicsPhase
          (floorPhase (shakePhase r s))))))).characterX
        (treeMovePhase (treePhase r (clearCollisionPhase (spawnPhase r (physicsPhase
          (floorPhase (shakePhase r s))))))).characterY
        { o with x := o.x - OBSTACLE_SPEED } = true := by
    obtain ⟨o, ho, hc⟩ := hhit
    refine ⟨o, ?_, ?_⟩
    · rw [q6]
      exact ho
    · rw [hx, fullPre_charY r s]
      exact hc
  have hmf := moveObstacles_fresh now
    (treeMovePhase (treePhase r (clearCollisionPhase (spawnPhase r (physicsPhase
      (floorPhase (shakePhase r s))))))).obstacles
    (treeMovePhase (treePhase r (clearCollisionPhase (spawnPhase r (physicsPhase
      (floorPhase (shakePhase r s)))))))
    htflag hthit
  exact ⟨hmf.1.trans (by rw [q3]), hmf.2⟩

/-! ## Helper lemmas: the attack scan -/

lemma mem_of_getElem?_some {α : Type} {l : List α} {n : ℕ} {a : α}
    (h : l[n]? = some a) : a ∈ l := by
  have hn : n < l.length := (List.getElem?_eq_some.mp h).1
  have := (List.getElem?_eq_some.mp h).2
  exact this ▸ List.getElem_mem hn

lemma destroyScan_nil (cx : ℚ) (i : ℕ) (best : Option (ℕ × ℚ)) :
    destroyScan cx [] i best = best := rfl

lemma destroyScan_cons (cx : ℚ) (o : Obst) (rest : List Obst) (i : ℕ)
    (best : Option (ℕ × ℚ)) :
    destroyScan cx (o :: rest) i best =
      destroyScan cx rest (i + 1)
        (if cx < o.x ∧ 0 < o.x + obstacleWidth o ∧ o.x < CANVAS_WIDTH then
          (if (match best with
               | none => true
               | some b => decide (o.x - cx < b.2)) && decide (2 < o.blocks.length)
           then some (i, o.x - cx) else best)
         else best) := rfl

lemma destroyScan_none (cx : ℚ) : ∀ (l : List Obst) (i : ℕ) (best : Option (ℕ × ℚ)),
    destroyScan cx l i best = none →
    best = none ∧ ∀ o ∈ l, ¬ attackCandidate cx o := by
  intro l
  induction l with
  | nil =>
    intro i best h
    exact ⟨h, by simp⟩
  | cons o rest ih =>
    intro i best h
    rw [destroyScan_cons] at h
    by_cases hq : cx < o.x ∧ 0 < o.x + obstacleWidth o ∧ o.x < CANVAS_WIDTH
    · rw [if_pos hq] at h
      by_cases hlen : 2 < o.blocks.length
      · cases best with
        | none =>
          rw [if_pos (by simp [hlen])] at h
          obtain ⟨hb, _⟩ := ih _ _ h
          exact absurd hb (by simp)
        | some b =>
          by_cases hd : o.x - cx < b.2
          · rw [if_pos (by simp [hlen, hd])] at h
            obtain ⟨hb, _⟩ := ih _ _ h
            exact absurd hb (by simp)
          · rw [if_neg (by simp [hd])] at h
            obtain ⟨hb, _⟩ := ih _ _ h
            exact absurd hb (by simp)
      · rw [if_neg (by simp [hlen])] at h
        obtain ⟨hb, hrest⟩ := ih _ _ h
        refine ⟨hb, ?_⟩
        intro o2 ho2
        rcases List.mem_cons.mp ho2 with heq | ho2
        · subst heq
          intro hc
          exact hlen hc.2.2.2
        · exact hrest o2 ho2
    · rw [if_neg hq] at h
      obtain ⟨hb, hrest⟩ := ih _ _ h
      refine ⟨hb, ?_⟩
      intro o2 ho2
      rcases List.mem_cons.mp ho2 with heq | ho2
      · subst heq
        intro hc
        exact hq ⟨hc.1, hc.2.1, hc.2.2.1⟩
      · exact hrest o2 ho2

lemma destroyScan_mono (cx : ℚ) : ∀ (l : List Obst) (i : ℕ) (b : ℕ × ℚ) (j : ℕ) (d : ℚ),
    destroyScan cx l i (some b) = some (j, d) → d ≤ b.2 := by
  intro l
  induction l with
  | nil =>
    intro i b j d h
    rw [destroyScan_nil, Option.some.injEq] at h
    subst h
    exact le_rfl
  | cons o rest ih =>
    intro i b j d h
    rw [destroyScan_cons] at h
    by_cases hq : cx < o.x ∧ 0 < o.x + obstacleWidth o ∧ o.x < CANVAS_WIDTH
    · rw [if_pos hq] at h
      by_cases hlen : 2 < o.blocks.length
      · by_cases hd : o.x - cx < b.2
        · rw [if_pos (by simp [hlen, hd])] at h
          exact le_trans (ih _ _ _ _ h) (le_of_lt hd)
        · rw [if_neg (by simp [hd])] at h
          exact ih _ _ _ _ h
      · rw [if_neg (by simp [hlen])] at h
        exact ih _ _ _ _ h
    · rw [if_neg hq] at h
      exact ih _ _ _ _ h

lemma destroyScan_min (cx : ℚ) : ∀ (l : List Obst) (i : ℕ) (best : Option (ℕ × ℚ))
    (j : ℕ) (d : ℚ), destroyScan cx l i best = some (j, d) →
    ∀ o2 ∈ l, attackCandidate cx o2 → d ≤ o2.x - cx := by
  intro l
  induction l with
  | nil =>
    intro i best j d _ o2 ho2
    simp at ho2
  | cons o rest ih =>
    intro i best j d h o2 ho2 hc2
    rw [destroyScan_cons] at h
    rcases List.mem_cons.mp ho2 with heq | ho2
    · subst heq
      have hq : cx < o2.x ∧ 0 < o2.x + obstacleWidth o2 ∧ o2.x < CANVAS_WIDTH :=
        ⟨hc2.1, hc2.2.1, hc2.2.2.1⟩
      have hlen : 2 < o2.blocks.length := hc2.2.2.2
      rw [if_pos hq] at h
      cases best with
      | none =>
        rw [if_pos (by simp [hlen])] at h
        exact destroyScan_mono cx rest _ _ _ _ h
      | some b =>
        by_cases hd : o2.x - cx < b.2
        · rw [if_pos (by simp [hlen, hd])] at h
          exact destroyScan_mono cx rest _ _ _ _ h
        · rw [if_neg (by simp [hd])] at h
          exact le_trans (destroyScan_mono cx rest _ _ _ _ h) (not_lt.mp hd)
    · exact ih _ _ _ _ h o2 ho2 hc2

lemma destroyScan_cases (cx : ℚ) : ∀ (l : List Obst) (i : ℕ) (best : Option (ℕ × ℚ))
    (j : ℕ) (d : ℚ), destroyScan cx l i best = some (j, d) →
    best = some (j, d) ∨
    ∃ k o, l[k]? = some o ∧ j = i + k ∧ attackCandidate cx o ∧ d = o.x - cx := by
  intro l
  induction l with
  | nil =>
    intro i best j d h
    rw [destroyScan_nil] at h
    exact Or.inl h
  | cons o rest ih =>
    intro i best j d h
    rw [destroyScan_cons] at h
    by_cases hq : cx < o.x ∧ 0 < o.x + obstacleWidth o ∧ o.x < CANVAS_WIDTH
    · rw [if_pos hq] at h
      by_cases hlen : 2 < o.blocks.length
      · cases best with
        | none =>
          rw [if_pos (by simp [hlen])] at h
          rcases ih _ _ _ _ h with heq | ⟨k, o3, hk, hj, hc, hd⟩
          · simp only [Option.some.injEq, Prod.mk.injEq] at heq
            exact Or.inr ⟨0, o, by simp, by omega, ⟨hq.1, hq.2.1, hq.2.2, hlen⟩, heq.2.symm⟩
          · exact Or.inr ⟨k + 1, o3, by simpa using hk, by omega, hc, hd⟩
        | some b =>
          by_cases hd2 : o.x - cx < b.2
          · rw [if_pos (by simp [hlen, hd2])] at h
            rcases ih _ _ _ _ h with heq | ⟨k, o3, hk, hj, hc, hd⟩
            · simp only [Option.some.injEq, Prod.mk.injEq] at heq
              exact Or.inr ⟨0, o, by simp, by omega, ⟨hq.1, hq.2.1, hq.2.2, hlen⟩, heq.2.symm⟩
            · exact Or.inr ⟨k + 1, o3, by simpa using hk, by omega, hc, hd⟩
          · rw [if_neg (by simp [hd2])] at h
            rcases ih _ _ _ _ h with heq | ⟨k, o3, hk, hj, hc, hd⟩
            · exact Or.inl heq
            · exact Or.inr ⟨k + 1, o3, by simpa using hk, by omega, hc, hd⟩
      · rw [if_neg (by simp [hlen])] at h
        rcases ih _ _ _ _ h with heq | ⟨k, o3, hk, hj, hc, hd⟩
        · exact Or.inl heq
        · exact Or.inr ⟨k + 1, o3, by simpa using hk, by omega, hc, hd⟩
    · rw [if_neg hq] at h
      rcases ih _ _ _ _ h with heq | ⟨k, o3, hk, hj, hc, hd⟩
      · exact Or.inl heq
      · exact Or.inr ⟨k + 1, o3, by simpa using hk, by omega, hc, hd⟩

/-! ## Helper lemmas: jump kinematics -/

lemma sqrt24_gt_48 : (4.8 : ℝ) < Real.sqrt 24 := by
  rw [show (4.8:ℝ) = Real.sqrt (4.8^2) by rw [Real.sqrt_sq]; norm_num]
  exact Real.sqrt_lt_sqrt (by norm_num) (by norm_num)

lemma sqrt24_lt_49 : Real.sqrt 24 < 4.9 := by
  rw [show (4.9:ℝ) = Real.sqrt (4.9^2) by rw [Real.sqrt_sq]; norm_num]
  exact Real.sqrt_lt_sqrt (by norm_num) (by norm_num)

lemma sqrt24_gt_485 : (4.85 : ℝ) < Real.sqrt 24 := by
  rw [show (4.85:ℝ) = Real.sqrt (4.85^2) by rw [Real.sqrt_sq]; norm_num]
  exact Real.sqrt_lt_sqrt (by norm_num) (by norm_num)

lemma JUMP_STRENGTH_eq : JUMP_STRENGTH = -Real.sqrt 24 := by
  rw [JUMP_STRENGTH, show (2 * 0.1 * 3 * 40 : ℝ) = 24 by norm_num]

lemma simStates_closed : ∀ k : ℕ, k ≤ 49 →
    simStates k = ⟨460 - (k : ℝ) * Real.sqrt 24 + (k : ℝ) * ((k : ℝ) + 1) / 20,
                   -Real.sqrt 24 + (k : ℝ) / 10, true, false⟩ := by
  intro k
  induction k with
  | zero =>
    intro _
    show jump groundedStart = _
    rw [jump, if_pos (by norm_num [groundedStart])]
    simp only [groundedStart, JUMP_STRENGTH_eq]
    norm_num
  | succ n ih =>
    intro hk
    have hcf := ih (by omega)
    have hn48 : (n : ℝ) ≤ 48 := by
      have : n ≤ 48 := by omega
      exact_mod_cast this
    rw [show simStates (n + 1) = physStep (simStates n) from
      Function.iterate_succ_apply' physStep n (jump groundedStart), hcf]
    rw [physStep]
    dsimp only
    rw [if_neg ?hneg]
    case hneg =>
      have hs := sqrt24_gt_48
      intro hcontra
      nlinarith [mul_pos (show (0:ℝ) < (n:ℝ) + 1 by positivity)
        (show (0:ℝ) < Real.sqrt 24 - ((n:ℝ) + 2) / 20 by nlinarith)]
    simp only [CharKin.mk.injEq]
    refine ⟨?_, ?_, trivial, trivial⟩
    · push_cast
      ring_nf
    · push_cast
      ring_nf

lemma riseAt_closed (k : ℕ) (hk : k ≤ 49) :
    riseAt k = (k : ℝ) * Real.sqrt 24 - (k : ℝ) * ((k : ℝ) + 1) / 20 := by
  rw [riseAt, simStates_closed k hk]
  dsimp only [groundedStart]
  ring

lemma riseAt_le_118 : ∀ k : ℕ, k ≤ 49 → riseAt k ≤ 118 := by
  intro k hk
  rw [riseAt_closed k hk]
  have hs := sqrt24_lt_49
  have hk' : (k : ℝ) ≤ 49 := by exact_mod_cast hk
  have hk0 : (0 : ℝ) ≤ (k : ℝ) := Nat.cast_nonneg k
  nlinarith [sq_nonneg ((k : ℝ) - 48.5), mul_le_mul_of_nonneg_left (le_of_lt hs) hk0]


lemma find?_map_update (u : String) (sc : ℤ) (st : Store)
    (h : (st.find? (fun e => e.1 == u)).isSome) :
    (st.map (fun e => if e.1 == u then (u, sc) else e)).find? (fun e => e.1 == u) =
      some (u, sc) := by
  induction st with
  | nil => simp [List.find?] at h
  | cons a t ih =>
    by_cases ha : a.1 == u
    · simp [List.find?, ha]
    · have ht : (t.find? (fun e => e.1 == u)).isSome := by
        simpa [List.find?, ha] using h
      simpa [List.find?, ha] using ih ht

lemma zscore_zadd_self (st : Store) (u : String) (sc : ℤ) :
    zscore (zadd st u sc) u = some sc := by
  unfold zscore zadd
  by_cases h : (st.find? (fun e => e.1 == u)).isSome
  · rw [if_pos h, find?_map_update u sc st h]
    rfl
  · have hn : st.find? (fun e => e.1 == u) = none :=
      Option.not_isSome_iff_eq_none.mp h
    simp [List.find?_append, hn, List.find?]

/-! ## Helper lemmas: the List endpoint -/

lemma revOrder_trans (a b c : String × ℤ) (hab : revOrder a b = true)
    (hbc : revOrder b c = true) : revOrder a c = true := by
  simp only [revOrder, decide_eq_true_eq] at *
  rcases hab with h1 | ⟨h1e, h1s⟩ <;> rcases hbc with h2 | ⟨h2e, h2s⟩
  · left; omega
  · left; omega
  · left; omega
  · right
    exact ⟨h1e.trans h2e, not_lt.mpr (le_trans (not_lt.mp h2s) (not_lt.mp h1s))⟩

lemma revOrder_total (a b : String × ℤ) : (revOrder a b || revOrder b a) = true := by
  simp only [revOrder, Bool.or_eq_true, decide_eq_true_eq]
  rcases lt_trichotomy b.2 a.2 with h | h | h
  · left; left; exact h
  · by_cases hs : a.1 < b.1
    · right; right; exact ⟨h, not_lt.mpr (le_of_lt hs)⟩
    · left; right; exact ⟨h.symm, hs⟩
  · right; left; exact h

lemma pairwise_revOrder_mergeSort (st : Store) :
    List.Pairwise (fun a b => revOrder a b = true) (st.mergeSort revOrder) :=
  List.sorted_mergeSort revOrder_trans revOrder_total st

lemma pairwise_desc_zrevrangeTop25 (st : Store) :
    List.Pairwise (fun a b : String × ℤ => b.2 ≤ a.2) (zrevrangeTop25 st) := by
  have h := (pairwise_revOrder_mergeSort st).sublist
    (List.take_sublist 25 (st.mergeSort revOrder))
  refine h.imp ?_
  intro a b hab
  simp only [revOrder, decide_eq_true_eq] at hab
  rcases hab with h1 | ⟨h1, _⟩
  · exact le_of_lt h1
  · exact le_of_eq h1.symm

lemma mkEntries_spec (l : Store) : ∀ acc : List LBEntry,
    ∃ te, mkEntries l acc = acc ++ te ∧
      te.map (fun e => (e.username, e.score)) = l.filter (fun p => !(p.1 == "")) ∧
      ∀ k e, te.get? k = some e → e.position = acc.length + k + 1 := by
  induction l with
  | nil =>
    intro acc
    exact ⟨[], by simp [mkEntries], by simp, by intro k e h; simp at h⟩
  | cons p rest ih =>
    intro acc
    obtain ⟨u, sc⟩ := p
    by_cases hu : u = ""
    · obtain ⟨te, h1, h2, h3⟩ := ih acc
      exact ⟨te, by simpa [mkEntries, hu] using h1, by simpa [hu] using h2, h3⟩
    · obtain ⟨te, h1, h2, h3⟩ := ih (acc ++ [⟨u, sc, acc.length + 1⟩])
      refine ⟨⟨u, sc, acc.length + 1⟩ :: te, ?_, ?_, ?_⟩
      · simpa [mkEntries, hu, List.append_assoc] using h1
      · simpa [hu] using h2
      · intro k e hk
        cases k with
        | zero => cases hk; rfl
        | succ k =>
          have := h3 k e (by simpa using hk)
          simpa [Nat.add_assoc, Nat.add_comm, Nat.add_left_comm] using this

/-! ## Claim theorems: the leaderboard endpoints -/

/-- C1. Submitting a score for a username succeeds exactly when no entry
exists or the score strictly exceeds the stored best, success updates the
stored best to the submitted score, failure leaves the store untouched,
and the sequence 50, 30, 80, 80, 10 ends with a stored 80, succeeding only
on the first 50 and the first 80. -/
theorem submit_keeps_only_max (st : Store) (u : String) (q : ℚ)
    (hu : u ≠ "") (hq0 : 0 ≤ q) (hqi : q.isInt = true)
    (hsu : sanitizeUsername u ≠ "") :
    (submitHandler st ⟨u, q⟩).resp.status = 200 ∧
    ((submitHandler st ⟨u, q⟩).resp.success = some true ↔
      (zscore st (sanitizeUsername u) = none ∨
        ∃ e, zscore st (sanitizeUsername u) = some e ∧ (e : ℚ) < q)) ∧
    ((submitHandler st ⟨u, q⟩).resp.success = some false →
      (submitHandler st ⟨u, q⟩).store = st) ∧
    ((submitHandler st ⟨u, q⟩).resp.success = some true →
      zscore (submitHandler st ⟨u, q⟩).store (sanitizeUsername u) = some q.num) ∧
    (submitScores "gatsby" [50, 30, 80, 80, 10]).1 =
      [some true, some false, some true, some false, some false] ∧
    zscore (submitScores "gatsby" [50, 30, 80, 80, 10]).2 "gatsby" = some 80 := by
  have hscore : ¬ ((⟨u, q⟩ : SubmitReq).score < 0 ∨ ¬ (⟨u, q⟩ : SubmitReq).score.isInt) := by
    simp [hqi, not_lt.mpr hq0]
  refine ⟨?_, ?_, ?_, ?_, by decide, by decide⟩ <;>
    · unfold submitHandler
      rw [if_neg hu, if_neg hscore, if_neg hsu]
      cases hz : zscore st (sanitizeUsername u) with
      | none => simp [hz, zscore_zadd_self]
      | some e =>
        by_cases he : (e : ℚ) < q
        · simp [hz, he, zscore_zadd_self]
        · simp [hz, he]

/-- C1 witness: with 50 on record for "gatsby", submitting 80 succeeds and
stores 80. -/
theorem submit_keeps_only_max_witness :
    (submitHandler [("gatsby", 50)] ⟨"gatsby", 80⟩).resp.status = 200 ∧
    zscore (submitHandler [("gatsby", 50)] ⟨"gatsby", 80⟩).store
      (sanitizeUsername "gatsby") = some (80 : ℚ).num :=
  ⟨(submit_keeps_only_max [("gatsby", 50)] "gatsby" 80
      (by decide) (by decide) (by decide) (by decide)).1,
   (submit_keeps_only_max [("gatsby", 50)] "gatsby" 80
      (by decide) (by decide) (by decide) (by decide)).2.2.2.1 (by decide)⟩

/-- C8. The server re-sanitizes the username (trim, cap at 50, strip to
the allowed class), storing "John Doe!!" as "JohnDoe"; a username empty
after sanitization is rejected with 400 before any Redis command, and a
negative or non-integer score is rejected with 400. -/
theorem submit_sanitizes_username :
    sanitizeUsername "John Doe!!" = "JohnDoe" ∧
    (submitHandler [] ⟨"John Doe!!", 10⟩).store = [("JohnDoe", 10)] ∧
    (submitHandler [] ⟨"John Doe!!", 10⟩).resp.username = some "JohnDoe" ∧
    (submitHandler [] ⟨"!!!", 7⟩).resp.status = 400 ∧
    (submitHandler [] ⟨"!!!", 7⟩).redisCalls = 0 ∧
    (∀ st u q, u ≠ "" → (q < 0 ∨ ¬ q.isInt) →
      (submitHandler st ⟨u, q⟩).resp.status = 400 ∧
      (submitHandler st ⟨u, q⟩).store = st ∧
      (submitHandler st ⟨u, q⟩).redisCalls = 0) ∧
    (∀ st u q, u ≠ "" → 0 ≤ q → q.isInt = true → sanitizeUsername u = "" →
      (submitHandler st ⟨u, q⟩).resp.status = 400 ∧
      (submitHandler st ⟨u, q⟩).store = st ∧
      (submitHandler st ⟨u, q⟩).redisCalls = 0) := by
  refine ⟨by decide, by decide, by decide, by decide, by decide, ?_, ?_⟩
  · intro st u q hu hq
    unfold submitHandler
    rw [if_neg hu, if_pos hq]
    exact ⟨rfl, rfl, rfl⟩
  · intro st u q hu hq0 hqi hsu
    have hscore : ¬ ((⟨u, q⟩ : SubmitReq).score < 0 ∨ ¬ (⟨u, q⟩ : SubmitReq).score.isInt) := by
      simp [hqi, not_lt.mpr hq0]
    unfold submitHandler
    rw [if_neg hu, if_neg hscore, if_pos hsu]
    exact ⟨rfl, rfl, rfl⟩

/-- C9 counterexample. A GET request carrying the invalid difficulty value
"banana" is answered with status 200 (the handler never reads the query
string), not with the claimed 400. -/
theorem leaderboard_invalid_difficulty_cex :
    (leaderboardHandler ⟨"GET", [("difficulty", "banana")]⟩ []).status = 200 ∧
    (leaderboardHandler ⟨"GET", [("difficulty", "banana")]⟩ []).status ≠ 400 := by
  exact ⟨by decide, by decide⟩

/-- C9 (amended). The List handler ignores the query string entirely (an
invalid difficulty value is not rejected with 400 — the response is the
same for every query); every successful response carries entries ordered
descending by score, 1-based positions assigned in that order, and at most
25 entries. -/
theorem leaderboard_list_shape :
    (∀ st q, (leaderboardHandler ⟨"GET", q⟩ st).status = 200) ∧
    (∀ st q q', leaderboardHandler ⟨"GET", q⟩ st = leaderboardHandler ⟨"GET", q'⟩ st) ∧
    (∀ st q, (leaderboardHandler ⟨"GET", q⟩ st).entries.length ≤ 25) ∧
    (∀ st q, List.Pairwise (fun a b => b.score ≤ a.score)
      (leaderboardHandler ⟨"GET", q⟩ st).entries) ∧
    (∀ st q k e, (leaderboardHandler ⟨"GET", q⟩ st).entries.get? k = some e →
      e.position = k + 1) := by
  have hent : ∀ st : Store, ∃ te, mkEntries (zrevrangeTop25 st) [] = te ∧
      te.map (fun e => (e.username, e.score)) =
        (zrevrangeTop25 st).filter (fun p => !(p.1 == "")) ∧
      ∀ k e, te.get? k = some e → e.position = k + 1 := by
    intro st
    obtain ⟨te, h1, h2, h3⟩ := mkEntries_spec (zrevrangeTop25 st) []
    exact ⟨te, by simpa using h1, h2, fun k e hk => by simpa using h3 k e hk⟩
  refine ⟨fun st q => rfl, fun st q q' => rfl, ?_, ?_, ?_⟩
  · intro st q
    obtain ⟨te, h1, h2, _⟩ := hent st
    have hlen : te.length = ((zrevrangeTop25 st).filter (fun p => !(p.1 == ""))).length := by
      rw [← h2, List.length_map]
    have : ((zrevrangeTop25 st).filter (fun p => !(p.1 == ""))).length ≤ 25 := by
      calc ((zrevrangeTop25 st).filter (fun p => !(p.1 == ""))).length
          ≤ (zrevrangeTop25 st).length := List.length_filter_le _ _
        _ ≤ 25 := by
            unfold zrevrangeTop25
            exact (List.length_take 25 (st.mergeSort revOrder)) ▸
              min_le_left 25 (st.mergeSort revOrder).length
    show (mkEntries (zrevrangeTop25 st) []).length ≤ 25
    rw [h1, hlen]
    exact this
  · intro st q
    obtain ⟨te, h1, h2, _⟩ := hent st
    have hsorted : List.Pairwise (fun a b : String × ℤ => b.2 ≤ a.2)
        ((zrevrangeTop25 st).filter (fun p => !(p.1 == ""))) :=
      (pairwise_desc_zrevrangeTop25 st).sublist (List.filter_sublist _)
    have : List.Pairwise (fun a b : String × ℤ => b.2 ≤ a.2)
        (te.map (fun e => (e.username, e.score))) := h2 ▸ hsorted
    have := List.pairwise_map.mp this
    show List.Pairwise (fun a b => b.score ≤ a.score) (mkEntries (zrevrangeTop25 st) [])
    rw [h1]
    exact this
  · intro st q k e hk
    obtain ⟨te, h1, _, h3⟩ := hent st
    refine h3 k e ?_
    have : (mkEntries (zrevrangeTop25 st) []).get? k = some e := hk
    rwa [h1] at this


lemma update_spawn_redraw (r : TickRand) (now : ℚ) (s : GameSt)
    (hPlay : s.state = GState.PLAYING)
    (hTrig : s.obstacleSpacing ≤ ((s.obstacleTimer + 1 : ℕ) : ℚ)) :
    (update r now s).obstacleSpacing =
      ((round (OBSTACLE_SPACING * (1/2 + 1 * r.spacingU)) : ℤ) : ℚ) ∧
    (update r now s).obstacleTimer = 0 := by
  rw [update_eq_playing r now s hPlay, movePhase_spec]
  obtain ⟨q1, q2, q3, q4, q5, q6, q7, q8, q9⟩ := fullPre_fields r s
  obtain ⟨p1, p2, p3, p4, p5, p6, p7, p8, p9, p10⟩ := prePhases_frame r s
  have htrig2 : (physicsPhase (floorPhase (shakePhase r s))).obstacleSpacing ≤
      (((physicsPhase (floorPhase (shakePhase r s))).obstacleTimer + 1 : ℕ) : ℚ) := by
    rw [p7, p8]
    exact hTrig
  obtain ⟨t1, t2, t3⟩ := spawnPhase_trigger r _ htrig2
  obtain ⟨m1, m2, _, _⟩ := moveObstacles_frame now
    (treeMovePhase (treePhase r (clearCollisionPhase (spawnPhase r (physicsPhase
      (floorPhase (shakePhase r s))))))).obstacles
    (treeMovePhase (treePhase r (clearCollisionPhase (spawnPhase r (physicsPhase
      (floorPhase (shakePhase r s)))))))
  constructor
  · show (moveObstacles now _ _).2.1.obstacleSpacing = _
    rw [m2, q8, t2]
  · show (moveObstacles now _ _).2.1.obstacleTimer = 0
    rw [m1, q7, t1]

/-! ## Claim theorems: the game tick -/

/-- C10. While the game state is START or GAME_OVER, a tick of `update`
leaves the whole gameplay state unchanged — state, score, lives, character
position and vertical velocity, both jump flags, the collision latch, the
obstacle and tree collections, the spawn timers, the difficulty and the
floor offset; only the cosmetic shake-animation fields may still advance. -/
theorem idle_tick_preserves_gameplay (r : TickRand) (now : ℚ) (s : GameSt)
    (h : s.state = GState.START ∨ s.state = GState.GAME_OVER) :
    (update r now s).state = s.state ∧
    (update r now s).score = s.score ∧
    (update r now s).lives = s.lives ∧
    (update r now s).characterX = s.characterX ∧
    (update r now s).characterY = s.characterY ∧
    (update r now s).characterVelocityY = s.characterVelocityY ∧
    (update r now s).canDoubleJump = s.canDoubleJump ∧
    (update r now s).hasDoubleJumped = s.hasDoubleJumped ∧
    (update r now s).isInCollision = s.isInCollision ∧
    (update r now s).obstacles = s.obstacles ∧
    (update r now s).trees = s.trees ∧
    (update r now s).obstacleTimer = s.obstacleTimer ∧
    (update r now s).obstacleSpacing = s.obstacleSpacing ∧
    (update r now s).treeSpawnCounter = s.treeSpawnCounter ∧
    (update r now s).nextTreeSpawnFrame = s.nextTreeSpawnFrame ∧
    (update r now s).difficulty = s.difficulty ∧
    (update r now s).floorOffset = s.floorOffset := by
  rw [update_eq_idle r now s h]
  obtain ⟨h1, h2, h3, h4, h5, h6, h7, h8, h9, h10, h11, h12, h13, h14, _, h16, _,
    h18, h19, _, _, _, _⟩ := shakePhase_frame r s
  exact ⟨h1, h2, h9, h4, h5, h6, h7, h8, h10, h12, h16, h13, h14, h18, h19, h3, h11⟩

/-- C10 witness: a concrete START-state tick keeps the score. -/
theorem idle_tick_preserves_gameplay_witness :
    (update r0 0 { baseSt with state := GState.START }).score =
      ({ baseSt with state := GState.START } : GameSt).score :=
  (idle_tick_preserves_gameplay r0 0 { baseSt with state := GState.START }
    (Or.inl rfl)).2.1

/-- C4 counterexample. A MEDIUM-difficulty session whose difficulty
selection set `obstacleSpacing = 200`, on the tick where the frame counter
reaches it (uniform draw 1/2 for the redraw): the code redraws the spacing
to `round(300 * 1.0) = 300` from the fixed `CONFIG.OBSTACLE_SPACING`,
while the claim's formula `round(baseSpacing(MEDIUM) * 1.0)` yields 200. -/
theorem spawn_uses_config_spacing_cex :
    spawnReadySt.difficulty = DifficultyLevel.MEDIUM ∧
    DifficultySettings.obstacleSpacing DifficultyLevel.MEDIUM = 200 ∧
    (update r0 0 spawnReadySt).obstacleSpacing = 300 ∧
    ((round (DifficultySettings.obstacleSpacing DifficultyLevel.MEDIUM *
      (1/2 + 1 * r0.spacingU)) : ℤ) : ℚ) = 200 ∧
    (300 : ℚ) ≠ 200 := by
  refine ⟨rfl, rfl, ?_, ?_, by norm_num⟩
  · have h := (update_spawn_redraw r0 0 spawnReadySt rfl (by norm_num [spawnReadySt, baseSt])).1
    rw [h]
    norm_num [round_eq, OBSTACLE_SPACING, r0]
  · norm_num [round_eq, DifficultySettings.obstacleSpacing, r0]

/-- C4 (amended). On a tick in which the frame counter reaches the current
`obstacleSpacing`, the counter resets and the spacing is redrawn as
`round(OBSTACLE_SPACING * uniform(0.5, 1.5))` with the fixed
`CONFIG.OBSTACLE_SPACING = 300` as base — not the selected difficulty's
base — and exactly one obstacle is appended at `x` equal to the viewport
width (standing at `width - OBSTACLE_SPEED` once the same tick's movement
stage has run), with a block count in [2, 10] and blocks stacked from the
floor upward at `FLOOR_Y - BLOCK_SIZE - i * BLOCK_SIZE`. -/
theorem spawn_tick_spec (r : TickRand) (now : ℚ) (s : GameSt)
    (hPlay : s.state = GState.PLAYING) (hX : s.characterX = 100)
    (hTrig : s.obstacleSpacing ≤ ((s.obstacleTimer + 1 : ℕ) : ℚ))
    (hu0 : 0 ≤ r.blockU) (hu1 : r.blockU < 1) :
    (update r now s).obstacleTimer = 0 ∧
    (update r now s).obstacleSpacing =
      ((round (OBSTACLE_SPACING * (1/2 + 1 * r.spacingU)) : ℤ) : ℚ) ∧
    2 ≤ (⌊r.blockU * 9⌋).toNat + 2 ∧ (⌊r.blockU * 9⌋).toNat + 2 ≤ 10 ∧
    (mkObstacle CANVAS_WIDTH ((⌊r.blockU * 9⌋).toNat + 2)
        (getRandomObstacleImage s.obstacleImages r.obImgU).1
        (getRandomObstacleImage s.obstacleImages r.obImgU).2).blocks =
      (List.range ((⌊r.blockU * 9⌋).toNat + 2)).map
        (fun i => FLOOR_Y - BLOCK_SIZE - (i : ℚ) * BLOCK_SIZE) ∧
    ∃ kept : List Obst,
      (update r now s).obstacles = kept ++
        [{ mkObstacle CANVAS_WIDTH ((⌊r.blockU * 9⌋).toNat + 2)
            (getRandomObstacleImage s.obstacleImages r.obImgU).1
            (getRandomObstacleImage s.obstacleImages r.obImgU).2 with
            x := CANVAS_WIDTH - OBSTACLE_SPEED }] ∧
      kept.length ≤ s.obstacles.length := by
  have hb2 : (⌊r.blockU * 9⌋).toNat + 2 ≤ 10 := by
    have h9 : ⌊r.blockU * 9⌋ < 9 := Int.floor_lt.mpr (by push_cast; nlinarith)
    omega
  rw [update_eq_playing r now s hPlay, movePhase_spec]
  obtain ⟨q1, q2, q3, q4, q5, q6, q7, q8, q9⟩ := fullPre_fields r s
  obtain ⟨p1, p2, p3, p4, p5, p6, p7, p8, p9, p10⟩ := prePhases_frame r s
  have htrig2 : (physicsPhase (floorPhase (shakePhase r s))).obstacleSpacing ≤
      (((physicsPhase (floorPhase (shakePhase r s))).obstacleTimer + 1 : ℕ) : ℚ) := by
    rw [p7, p8]
    exact hTrig
  obtain ⟨t1, t2, t3⟩ := spawnPhase_trigger r _ htrig2
  have t3s : (spawnPhase r (physicsPhase (floorPhase (shakePhase r s)))).obstacles =
      s.obstacles ++ [mkObstacle CANVAS_WIDTH ((⌊r.blockU * 9⌋).toNat + 2)
        (getRandomObstacleImage s.obstacleImages r.obImgU).1
        (getRandomObstacleImage s.obstacleImages r.obImgU).2] := by
    rw [t3, p6, p9]
  have hQobs : (treeMovePhase (treePhase r (clearCollisionPhase (spawnPhase r (physicsPhase
      (floorPhase (shakePhase r s))))))).obstacles =
      s.obstacles ++ [mkObstacle CANVAS_WIDTH ((⌊r.blockU * 9⌋).toNat + 2)
        (getRandomObstacleImage s.obstacleImages r.obImgU).1
        (getRandomObstacleImage s.obstacleImages r.obImgU).2] := q6.trans t3s
  have hQx : (treeMovePhase (treePhase r (clearCollisionPhase (spawnPhase r (physicsPhase
      (floorPhase (shakePhase r s))))))).characterX = 100 := q4.trans hX
  have hpo : processObstacle now
      (treeMovePhase (treePhase r (clearCollisionPhase (spawnPhase r (physicsPhase
        (floorPhase (shakePhase r s)))))))
      (mkObstacle CANVAS_WIDTH ((⌊r.blockU * 9⌋).toNat + 2)
        (getRandomObstacleImage s.obstacleImages r.obImgU).1
        (getRandomObstacleImage s.obstacleImages r.obImgU).2) =
      (some { mkObstacle CANVAS_WIDTH ((⌊r.blockU * 9⌋).toNat + 2)
          (getRandomObstacleImage s.obstacleImages r.obImgU).1
          (getRandomObstacleImage s.obstacleImages r.obImgU).2 with
          x := CANVAS_WIDTH - OBSTACLE_SPEED },
        treeMovePhase (treePhase r (clearCollisionPhase (spawnPhase r (physicsPhase
          (floorPhase (shakePhase r s)))))), false) := by
    have := processObstacle_far now
      (treeMovePhase (treePhase r (clearCollisionPhase (spawnPhase r (physicsPhase
        (floorPhase (shakePhase r s)))))))
      (mkObstacle CANVAS_WIDTH ((⌊r.blockU * 9⌋).toNat + 2)
        (getRandomObstacleImage s.obstacleImages r.obImgU).1
        (getRandomObstacleImage s.obstacleImages r.obImgU).2)
      (by rw [hQx]; norm_num [mkObstacle, CANVAS_WIDTH, CHARACTER_SIZE, OBSTACLE_SPEED])
      (by norm_num [mkObstacle, CANVAS_WIDTH, OBSTACLE_SPEED, BLOCK_SIZE])
      (by simp [mkObstacle])
    simpa [mkObstacle] using this
  have happ := moveObstacles_append now
    (mkObstacle CANVAS_WIDTH ((⌊r.blockU * 9⌋).toNat + 2)
      (getRandomObstacleImage s.obstacleImages r.obImgU).1
      (getRandomObstacleImage s.obstacleImages r.obImgU).2)
    ({ mkObstacle CANVAS_WIDTH ((⌊r.blockU * 9⌋).toNat + 2)
        (getRandomObstacleImage s.obstacleImages r.obImgU).1
        (getRandomObstacleImage s.obstacleImages r.obImgU).2 with
        x := CANVAS_WIDTH - OBSTACLE_SPEED })
    (treeMovePhase (treePhase r (clearCollisionPhase (spawnPhase r (physicsPhase
      (floorPhase (shakePhase r s)))))))
    hpo s.obstacles
  obtain ⟨m1, m2, _, _⟩ := moveObstacles_frame now
    (treeMovePhase (treePhase r (clearCollisionPhase (spawnPhase r (physicsPhase
      (floorPhase (shakePhase r s))))))).obstacles
    (treeMovePhase (treePhase r (clearCollisionPhase (spawnPhase r (physicsPhase
      (floorPhase (shakePhase r s)))))))
  refine ⟨?_, ?_, by omega, hb2, by simp [mkObstacle], ?_⟩
  · show (moveObstacles now _ _).2.1.obstacleTimer = 0
    rw [m1, q7, t1]
  · show (moveObstacles now _ _).2.1.obstacleSpacing = _
    rw [m2, q8, t2]
  · refine ⟨(moveObstacles now s.obstacles
      (treeMovePhase (treePhase r (clearCollisionPhase (spawnPhase r (physicsPhase
        (floorPhase (shakePhase r s)))))))).1, ?_, moveObstacles_length_le now _ _⟩
    show (moveObstacles now _ _).1 = _
    rw [hQobs, happ]


/-- C4 witness: a session one frame short of its spacing of 200 resets the
counter on the next tick. -/
theorem spawn_tick_spec_witness :
    (update r0 0 spawnReadySt).obstacleTimer = 0 :=
  (spawn_tick_spec r0 0 spawnReadySt rfl rfl
    (by norm_num [spawnReadySt, baseSt]) (by norm_num [r0]) (by norm_num [r0])).1

/-- C3. During a PLAYING tick that does not end the run, the score grows
by exactly the sum of the block counts (at time of retirement) of the
obstacles whose right edge `x + BLOCK_SIZE` has passed the left viewport
edge after the move, those obstacles and no others leave the active set
(the survivors' positions are exactly the moved positions of the
remaining ones), and on every tick whatsoever the score never decreases. -/
theorem obstacle_retirement_scoring (r : TickRand) (now : ℚ) (s : GameSt)
    (hPlay : s.state = GState.PLAYING)
    (hNoHalt : (update r now s).state = GState.PLAYING) :
    (update r now s).score = s.score +
      (((activeAfterSpawn r s).filter
          (fun o => decide (o.x - OBSTACLE_SPEED + BLOCK_SIZE < 0))).map
        (fun o => o.blocks.length)).sum ∧
    (update r now s).obstacles.map (fun o => o.x) =
      ((activeAfterSpawn r s).filter
          (fun o => decide (0 ≤ o.x - OBSTACLE_SPEED + BLOCK_SIZE))).map
        (fun o => o.x - OBSTACLE_SPEED) ∧
    (∀ r2 : TickRand, ∀ t2 : ℚ, ∀ s2 : GameSt, s2.score ≤ (update r2 t2 s2).score) := by
  rw [update_eq_playing r now s hPlay, movePhase_spec] at hNoHalt ⊢
  obtain ⟨q1, q2, q3, q4, q5, q6, q7, q8, q9⟩ := fullPre_fields r s
  have hhalt : (moveObstacles now
      (treeMovePhase (treePhase r (clearCollisionPhase (spawnPhase r (physicsPhase
        (floorPhase (shakePhase r s))))))).obstacles
      (treeMovePhase (treePhase r (clearCollisionPhase (spawnPhase r (physicsPhase
        (floorPhase (shakePhase r s)))))))).2.2 = false := by
    by_contra hh
    have hh2 : (moveObstacles now
        (treeMovePhase (treePhase r (clearCollisionPhase (spawnPhase r (physicsPhase
          (floorPhase (shakePhase r s))))))).obstacles
        (treeMovePhase (treePhase r (clearCollisionPhase (spawnPhase r (physicsPhase
          (floorPhase (shakePhase r s)))))))).2.2 = true := by
      simpa using hh
    have hgo := moveObstacles_halt_state now _ _ hh2
    have : GState.GAME_OVER_ANIMATING = GState.PLAYING := by
      rw [← hgo]
      exact hNoHalt
    simp at this
  obtain ⟨hsc, hmap⟩ := moveObstacles_noHalt_spec now _ _ hhalt
  refine ⟨?_, ?_, ?_⟩
  · show (moveObstacles now _ _).2.1.score = _
    rw [hsc, q2, q6]
    rfl
  · show (moveObstacles now _ _).1.map (fun o => o.x) = _
    rw [hmap, q6]
    rfl
  · intro r2 t2 s2
    exact update_score_mono r2 t2 s2

/-- C3 witness: a concrete tick in which a two-block tower at `x = -38`
scrolls off and banks its two blocks. -/
theorem obstacle_retirement_scoring_witness :
    (update r0 0 { baseSt with obstacles := [retiringObst] }).score =
      ({ baseSt with obstacles := [retiringObst] } : GameSt).score +
        (((activeAfterSpawn r0 { baseSt with obstacles := [retiringObst] }).filter
            (fun o => decide (o.x - OBSTACLE_SPEED + BLOCK_SIZE < 0))).map
          (fun o => o.blocks.length)).sum :=
  (obstacle_retirement_scoring r0 0 { baseSt with obstacles := [retiringObst] }
    rfl (update_keeps_playing r0 0 _ rfl (by norm_num [baseSt]))).1

/-- C2. On a `PLAYING` tick: while the `isInCollision` latch is set and
some obstacle still overlaps, the tick deducts no life and keeps the
latch; any tick that changes the life count deducts exactly one life,
sets the latch, and happens only on an edge (latch previously off or a
zero-overlap check this tick); the latch drops only when it was off or
the whole-set overlap check found nothing; a fresh overlap with the
latch clear — some moved obstacle overlapping the character — deducts
exactly one life and sets the latch; over any run of ticks that stay
latched and overlapping, the life count never moves; and a run that
opens with a fresh overlap and stays overlapping afterwards loses
exactly one life over the whole run. -/
theorem collision_edge_trigger (r : TickRand) (now : ℚ) (s : GameSt)
    (hPlay : s.state = GState.PLAYING) :
    (s.isInCollision = true → collidingAfterSpawn r s = true →
      (update r now s).lives = s.lives ∧ (update r now s).isInCollision = true) ∧
    ((update r now s).lives ≠ s.lives →
      (update r now s).lives = s.lives - 1 ∧
      (update r now s).isInCollision = true ∧
      (s.isInCollision = false ∨ collidingAfterSpawn r s = false)) ∧
    ((update r now s).isInCollision = false →
      (s.isInCollision = false ∨ collidingAfterSpawn r s = false)) ∧
    (s.isInCollision = false → freshOverlapMoved r s →
      (update r now s).lives = s.lives - 1 ∧
      (update r now s).isInCollision = true) ∧
    (∀ (rs : ℕ → TickRand) (ts : ℕ → ℚ) (n : ℕ),
      (∀ k, k < n →
        (trace rs ts s k).state = GState.PLAYING ∧
        (trace rs ts s k).isInCollision = true ∧
        collidingAfterSpawn (rs k) (trace rs ts s k) = true) →
      (trace rs ts s n).lives = s.lives ∧
      (0 < n → (trace rs ts s n).isInCollision = true)) ∧
    (∀ (rs : ℕ → TickRand) (ts : ℕ → ℚ) (n : ℕ),
      s.isInCollision = false → freshOverlapMoved (rs 0) s →
      (∀ k, 1 ≤ k → k < n →
        (trace rs ts s k).state = GState.PLAYING ∧
        collidingAfterSpawn (rs k) (trace rs ts s k) = true) →
      1 ≤ n →
      (trace rs ts s n).lives = s.lives - 1 ∧
      (trace rs ts s n).isInCollision = true) := by
  refine ⟨?_, ?_, ?_, ?_, ?_, ?_⟩
  · intro hflag hcol
    exact ⟨(update_latched r now s hPlay hflag hcol).1,
      (update_latched r now s hPlay hflag hcol).2.1⟩
  · intro hne
    rcases update_lives_cases r now s hPlay with ⟨e1, _⟩ | ⟨e1, e2, e3⟩
    · exact absurd e1 hne
    · refine ⟨e1, e2, ?_⟩
      by_cases hA : s.isInCollision = true
      · simp only [hA, Bool.true_and] at e3
        exact Or.inr e3
      · exact Or.inl (Bool.not_eq_true _ ▸ (by simpa using hA))
  · intro hoff
    rcases update_lives_cases r now s hPlay with ⟨_, e2⟩ | ⟨_, e2, _⟩
    · rw [hoff] at e2
      by_cases hA : s.isInCollision = true
      · simp only [hA, Bool.true_and] at e2
        exact Or.inr e2.symm
      · exact Or.inl (by simpa using hA)
    · rw [hoff] at e2
      exact absurd e2.symm (by simp)
  · intro hflag hfresh
    exact update_fresh_hit r now s hPlay hflag hfresh
  · intro rs ts n h
    induction n with
    | zero => exact ⟨rfl, by omega⟩
    | succ m ih =>
      obtain ⟨ih1, _⟩ := ih (fun k hk => h k (Nat.lt_succ_of_lt hk))
      obtain ⟨hm1, hm2, hm3⟩ := h m (Nat.lt_succ_self m)
      have hl := update_latched (rs m) (ts m) (trace rs ts s m) hm1 hm2 hm3
      exact ⟨hl.1.trans ih1, fun _ => hl.2.1⟩
  · intro rs ts n hflag0 hfresh
    induction n with
    | zero =>
      intro _ hn
      exact absurd hn (by omega)
    | succ m ih =>
      intro hrun hn
      by_cases hm : m = 0
      · subst hm
        exact update_fresh_hit (rs 0) (ts 0) s hPlay hflag0 hfresh
      · have hm1 : 1 ≤ m := by omega
        obtain ⟨e1, e2⟩ := ih (fun k hk1 hk2 => hrun k hk1 (by omega)) hm1
        obtain ⟨hst, hcol⟩ := hrun m hm1 (by omega)
        have hl := update_latched (rs m) (ts m) (trace rs ts s m) hst e2 hcol
        exact ⟨hl.1.trans e1, hl.2.1⟩

/-- C2 witness: with the latch clear, a one-block tower at `x = 110`
moves to `x = 107` and overlaps the character at (100, 460) — the tick
deducts exactly one life (3 to 2) and sets the latch; with the latch
already set over the same overlap, the tick deducts nothing and keeps
the latch. -/
theorem collision_edge_trigger_witness :
    ((update r0 0 { baseSt with obstacles := [overlapObst] }).lives =
        ({ baseSt with obstacles := [overlapObst] } : GameSt).lives - 1 ∧
      (update r0 0 { baseSt with obstacles := [overlapObst] }).isInCollision = true) ∧
    ((update r0 0 { baseSt with obstacles := [overlapObst], isInCollision := true }).lives =
        ({ baseSt with obstacles := [overlapObst], isInCollision := true } : GameSt).lives ∧
      (update r0 0 { baseSt with
        obstacles := [overlapObst],
        isInCollision := true }).isInCollision = true) :=
  ⟨(collision_edge_trigger r0 0 { baseSt with obstacles := [overlapObst] } rfl).2.2.2.1
      rfl
      ⟨overlapObst,
        by norm_num [activeAfterSpawn, spawnPhase, physicsPhase, floorPhase,
          shakePhase, baseSt, OBSTACLE_SPACING, FLOOR_Y, CHARACTER_SIZE,
          GRAVITY, FLOOR_SPEED],
        by norm_num [physicsPhase, floorPhase, shakePhase, checkCollision,
          obstacleWidth, baseSt, overlapObst, OBSTACLE_SPEED, BLOCK_SIZE,
          FLOOR_Y, CHARACTER_SIZE, GRAVITY, FLOOR_SPEED, List.any]⟩,
   ⟨((collision_edge_trigger r0 0
        { baseSt with obstacles := [overlapObst], isInCollision := true } rfl).1
      rfl
      (by norm_num [collidingAfterSpawn, collidingAny, spawnPhase, physicsPhase,
        floorPhase, shakePhase, checkCollision, obstacleWidth, baseSt, overlapObst,
        FLOOR_Y, CHARACTER_SIZE, GRAVITY, FLOOR_SPEED, BLOCK_SIZE, CANVAS_WIDTH,
        OBSTACLE_SPACING, List.any])).1,
    ((collision_edge_trigger r0 0
        { baseSt with obstacles := [overlapObst], isInCollision := true } rfl).1
      rfl
      (by norm_num [collidingAfterSpawn, collidingAny, spawnPhase, physicsPhase,
        floorPhase, shakePhase, checkCollision, obstacleWidth, baseSt, overlapObst,
        FLOOR_Y, CHARACTER_SIZE, GRAVITY, FLOOR_SPEED, BLOCK_SIZE, CANVAS_WIDTH,
        OBSTACLE_SPACING, List.any])).2⟩⟩

/-- C7. `destroyBlock` is the identity when no obstacle qualifies (ahead
of the character, on screen, more than 2 blocks); it never changes the
number of obstacles; every obstacle it returns is either untouched or the
single nearest qualifying obstacle with exactly its topmost block popped;
when some obstacle qualifies it pops the top block of a minimal-distance
candidate and starts the shake/bark animation; and a set of towers all
holding at least 2 blocks still all hold at least 2 blocks afterwards. -/
theorem attack_guard (s : GameSt) :
    ((∀ o ∈ s.obstacles, ¬ attackCandidate s.characterX o) → destroyBlock s = s) ∧
    (destroyBlock s).obstacles.length = s.obstacles.length ∧
    (∀ j : ℕ, ∀ o' : Obst, (destroyBlock s).obstacles[j]? = some o' →
      s.obstacles[j]? = some o' ∨
      ∃ o, s.obstacles[j]? = some o ∧ o' = popTopBlock o ∧
        attackCandidate s.characterX o ∧
        ∀ o2 ∈ s.obstacles, attackCandidate s.characterX o2 →
          o.x - s.characterX ≤ o2.x - s.characterX) ∧
    ((∃ o ∈ s.obstacles, attackCandidate s.characterX o) →
      ∃ j o, s.obstacles[j]? = some o ∧ attackCandidate s.characterX o ∧
        (destroyBlock s).obstacles = s.obstacles.set j (popTopBlock o) ∧
        (destroyBlock s).shakeTime = 0 ∧ (destroyBlock s).isBarking = true ∧
        ∀ o2 ∈ s.obstacles, attackCandidate s.characterX o2 →
          o.x - s.characterX ≤ o2.x - s.characterX) ∧
    ((∀ o ∈ s.obstacles, 2 ≤ o.blocks.length) →
      ∀ o' ∈ (destroyBlock s).obstacles, 2 ≤ o'.blocks.length) := by
  rcases hscan : destroyScan s.characterX s.obstacles 0 none with _ | ⟨j0, d⟩
  · have hid : destroyBlock s = s := by
      unfold destroyBlock
      simp only [hscan]
    refine ⟨fun _ => hid, by rw [hid], ?_, ?_, ?_⟩
    · intro j o' h
      rw [hid] at h
      exact Or.inl h
    · rintro ⟨o, ho, hc⟩
      have hn := destroyScan_none s.characterX s.obstacles 0 none hscan
      exact absurd hc (hn.2 o ho)
    · intro hall o' ho'
      rw [hid] at ho'
      exact hall o' ho'
  · rcases destroyScan_cases s.characterX s.obstacles 0 none j0 d hscan with
      heq | ⟨k, o, hk, hj, hc, hd⟩
    · exact absurd heq (by simp)
    · have hkj : k = j0 := by omega
      subst hkj
      have hlen3 : 2 < o.blocks.length := hc.2.2.2
      have hmin : ∀ o2 ∈ s.obstacles, attackCandidate s.characterX o2 →
          o.x - s.characterX ≤ o2.x - s.characterX := by
        intro o2 ho2 hc2
        have hm := destroyScan_min s.characterX s.obstacles 0 none k d hscan o2 ho2 hc2
        rw [hd] at hm
        exact hm
      have hget : s.obstacles.get? k = some o := by
        rw [List.get?_eq_getElem?]
        exact hk
      have hklen : k < s.obstacles.length := (List.getElem?_eq_some.mp hk).1
      have hblock : destroyBlock s =
          { s with obstacles := s.obstacles.set k (popTopBlock o),
                   shakeTime := 0, isBarking := true } := by
        unfold destroyBlock
        simp only [hscan, hget]
        rw [if_pos hlen3]
      refine ⟨?_, ?_, ?_, ?_, ?_⟩
      · intro hnone
        exact absurd hc (hnone o (mem_of_getElem?_some hk))
      · rw [hblock]
        simp
      · intro j o' h
        rw [hblock] at h
        by_cases hjk : k = j
        · subst hjk
          rw [List.getElem?_set_self hklen, Option.some.injEq] at h
          exact Or.inr ⟨o, hk, h.symm, hc, hmin⟩
        · rw [List.getElem?_set_ne hjk] at h
          exact Or.inl h
      · intro _
        exact ⟨k, o, hk, hc, by rw [hblock], by rw [hblock], by rw [hblock], hmin⟩
      · intro hall o' ho'
        rw [hblock] at ho'
        obtain ⟨j, hj'⟩ := List.mem_iff_getElem?.mp ho'
        by_cases hjk : k = j
        · subst hjk
          rw [List.getElem?_set_self hklen, Option.some.injEq] at hj'
          have : o'.blocks.length = o.blocks.length - 1 := by
            rw [← hj']
            exact List.length_dropLast o.blocks
          omega
        · rw [List.getElem?_set_ne hjk] at hj'
          exact hall o' (mem_of_getElem?_some hj')

/-- C5 counterexample. Integrating the discrete kinematics from a
grounded jump, the velocity first returns to nonnegative on tick 49, yet
every rise sampled up to that tick stays at or below 118 pixels — more
than 2 pixels short of the claimed `JUMP_HEIGHT_BLOCKS * BLOCK_SIZE = 120`
apex, far beyond floating-point tolerance. -/
theorem jump_apex_cex :
    ascentBoundedBy118 ∧
    (simStates 48).characterVelocityY < 0 ∧
    0 ≤ (simStates 49).characterVelocityY ∧
    (118 : ℝ) < 3 * 40 := by
  refine ⟨riseAt_le_118, ?_, ?_, by norm_num⟩
  · rw [simStates_closed 48 (by norm_num)]
    have := sqrt24_gt_48
    show -Real.sqrt 24 + (48 : ℕ) / 10 < 0
    push_cast
    nlinarith
  · rw [simStates_closed 49 (by norm_num)]
    have := sqrt24_lt_49
    show (0:ℝ) ≤ -Real.sqrt 24 + (49 : ℕ) / 10
    push_cast
    nlinarith

/-- C5 (amended). The discrete apex of a single unmodified jump: the
velocity is still negative entering tick 48 and first returns to
nonnegative on tick 49; the rise at tick 48 is exactly
`48·sqrt 24 − 117.6 ≈ 117.55` pixels, strictly between 115 and 118; and
every rise up to tick 49 is bounded by 118 — short of the exact
`JUMP_HEIGHT_BLOCKS * BLOCK_SIZE = 120` pixels the closed-form
`JUMP_STRENGTH` would give under continuous-time integration. -/
theorem jump_apex_discrete :
    riseAt 48 = 48 * Real.sqrt 24 - 117.6 ∧
    115 < riseAt 48 ∧ riseAt 48 < 118 ∧
    (simStates 48).characterVelocityY < 0 ∧
    0 ≤ (simStates 49).characterVelocityY ∧
    (∀ k : ℕ, k ≤ 49 → riseAt k ≤ 118) := by
  have h48 : riseAt 48 = 48 * Real.sqrt 24 - 117.6 := by
    rw [riseAt_closed 48 (by norm_num)]
    push_cast
    ring
  refine ⟨h48, ?_, ?_, ?_, ?_, riseAt_le_118⟩
  · rw [h48]
    have := sqrt24_gt_485
    nlinarith
  · rw [h48]
    have := sqrt24_lt_49
    nlinarith
  · rw [simStates_closed 48 (by norm_num)]
    have := sqrt24_gt_48
    show -Real.sqrt 24 + (48 : ℕ) / 10 < 0
    push_cast
    nlinarith
  · rw [simStates_closed 49 (by norm_num)]
    have := sqrt24_lt_49
    show (0:ℝ) ≤ -Real.sqrt 24 + (49 : ℕ) / 10
    push_cast
    nlinarith

/-- C6. `jump` follows the spec contract on every kinematics state:
grounded → impulse with `canDoubleJump := true, hasDoubleJumped := false`;
airborne with the double jump available → impulse consuming it; otherwise
a no-op. From grounded, two calls give exactly two impulses, a third call
before landing changes nothing, and the ground clamp of the physics step
resets both flags so a later `jump` takes the grounded branch again. -/
theorem jump_contract (c : CharKin) :
    (500 - 40 ≤ c.characterY →
      jump c = { c with characterVelocityY := JUMP_STRENGTH,
                        canDoubleJump := true, hasDoubleJumped := false }) ∧
    (c.characterY < 500 - 40 → c.canDoubleJump = true → c.hasDoubleJumped = false →
      jump c = { c with characterVelocityY := JUMP_STRENGTH,
                        hasDoubleJumped := true, canDoubleJump := false }) ∧
    (c.characterY < 500 - 40 → (c.canDoubleJump = false ∨ c.hasDoubleJumped = true) →
      jump c = c) ∧
    ((jump groundedStart).characterVelocityY = JUMP_STRENGTH ∧
     (jump groundedStart).canDoubleJump = true ∧
     (jump groundedStart).hasDoubleJumped = false) ∧
    ((physStep (jump groundedStart)).characterY < 500 - 40 ∧
     (jump (physStep (jump groundedStart))).characterVelocityY = JUMP_STRENGTH ∧
     (jump (physStep (jump groundedStart))).hasDoubleJumped = true ∧
     (jump (physStep (jump groundedStart))).canDoubleJump = false ∧
     jump (jump (physStep (jump groundedStart)))
       = jump (physStep (jump groundedStart))) ∧
    (∀ c2 : CharKin, 500 - 40 ≤ c2.characterY + (c2.characterVelocityY + 0.1) →
      (physStep c2).characterY = 500 - 40 ∧
      (physStep c2).canDoubleJump = false ∧
      (physStep c2).hasDoubleJumped = false ∧
      jump (physStep c2) = { physStep c2 with
        characterVelocityY := JUMP_STRENGTH,
        canDoubleJump := true, hasDoubleJumped := false }) := by
  have hone : simStates 1 = ⟨460 - Real.sqrt 24 + 2 / 20, -Real.sqrt 24 + 1 / 10,
      true, false⟩ := by
    have := simStates_closed 1 (by norm_num)
    rw [this]
    norm_num
  have hstep : physStep (jump groundedStart) = simStates 1 :=
    (Function.iterate_one physStep ▸ rfl : physStep^[1] (jump groundedStart) =
      physStep (jump groundedStart)).symm
  have hyair : (physStep (jump groundedStart)).characterY < 500 - 40 := by
    rw [hstep, hone]
    have := sqrt24_gt_48
    show (460 : ℝ) - Real.sqrt 24 + 2 / 20 < 500 - 40
    nlinarith
  refine ⟨?_, ?_, ?_, ?_, ?_, ?_⟩
  · intro hg
    rw [jump, if_pos hg]
  · intro ha hcd hhd
    rw [jump, if_neg (not_le.mpr ha), if_pos (by simp [hcd, hhd])]
  · intro ha hflags
    rw [jump, if_neg (not_le.mpr ha), if_neg]
    rcases hflags with h | h <;> simp [h]
  · rw [jump, if_pos (by norm_num [groundedStart])]
    exact ⟨rfl, rfl, rfl⟩
  · have hdj : (physStep (jump groundedStart)).canDoubleJump = true := by
      rw [hstep, hone]
    have hhd : (physStep (jump groundedStart)).hasDoubleJumped = false := by
      rw [hstep, hone]
    have hjump1 : jump (physStep (jump groundedStart)) =
        { physStep (jump groundedStart) with
          characterVelocityY := JUMP_STRENGTH,
          hasDoubleJumped := true, canDoubleJump := false } := by
      rw [jump, if_neg (not_le.mpr hyair), if_pos (by simp [hdj, hhd])]
    refine ⟨hyair, by rw [hjump1], by rw [hjump1], by rw [hjump1], ?_⟩
    rw [hjump1]
    rw [jump, if_neg, if_neg]
    · simp
    · simpa using not_le.mpr hyair
  · intro c2 hclamp
    have hps : physStep c2 = ⟨500 - 40, 0, false, false⟩ := by
      rw [physStep]
      rw [if_pos hclamp]
    refine ⟨by rw [hps], by rw [hps], by rw [hps], ?_⟩
    rw [jump, if_pos (by rw [hps])]

end Gatsby
